import Mathlib

/-!
Basic-authentication middleware (`functions/_middleware.js`).

A shallow embedding of the Pages middleware `authHandling` and of its helpers
`timingSafeEqual` and `promptToLogin`, together with the platform operations the
middleware calls: `TextEncoder.encode`, `crypto.subtle.timingSafeEqual`,
`String.prototype.split`, `Buffer.from(_, "base64")`, `Buffer.toString` and
`new Response`.

Strings are sequences of Unicode scalar values, that is JavaScript strings without lone
surrogates.  Where the platform works on the UTF-16 code units of a string, as the base64
decoder does, the units are computed from the scalar values.

Every function that acts on its environment returns a `Run`: how it completed and the
external calls it made, in program order.

The secret is called set when the binding `PASSWORD` holds a non-empty string: the guard
at the top of `authHandling` reads a missing binding and an empty one alike.
-/

namespace Middleware

/-! ## Bytes and UTF-8 -/

/-- Contents of a `Uint8Array` or `Buffer`: a list of numbers, each below 256. -/
abbrev Bytes := List Nat

/-- UTF-8 code units of one scalar value. -/
def encodeChar (c : Char) : Bytes :=
  let n := c.toNat
  if n < 0x80 then [n]
  else if n < 0x800 then [0xC0 + n / 64, 0x80 + n % 64]
  else if n < 0x10000 then [0xE0 + n / 4096, 0x80 + n / 64 % 64, 0x80 + n % 64]
  else [0xF0 + n / 262144, 0x80 + n / 4096 % 64, 0x80 + n / 64 % 64, 0x80 + n % 64]

/-- UTF-8 code units of a list of scalar values. -/
def encodeChars : List Char → Bytes
  | [] => []
  | c :: cs => encodeChar c ++ encodeChars cs

/-- The call `encoder.encode(s)` on the module-level `TextEncoder`: the UTF-8 bytes of `s`. -/
def encoder.encode (s : String) : Bytes := encodeChars s.data

/-- State of the UTF-8 decoder between two bytes: continuation bytes still needed, the
code point accumulated so far, and the range allowed for the next continuation byte. -/
structure Utf8State where
  needed : Nat
  codePoint : Nat
  lower : Nat
  upper : Nat
deriving DecidableEq, Repr

/-- Decoder state at a character boundary. -/
def Utf8State.initial : Utf8State := ⟨0, 0, 0x80, 0xBF⟩

/-- The character U+FFFD, written for every ill-formed subsequence. -/
def replacement : Char := Char.ofNat 0xFFFD

/-- Decoder step at a character boundary: characters written and next state. -/
def utf8Lead (b : Nat) : List Char × Utf8State :=
  if b ≤ 0x7F then ([Char.ofNat b], Utf8State.initial)
  else if 0xC2 ≤ b ∧ b ≤ 0xDF then ([], ⟨1, b % 32, 0x80, 0xBF⟩)
  else if 0xE0 ≤ b ∧ b ≤ 0xEF then
    ([], ⟨2, b % 16, if b = 0xE0 then 0xA0 else 0x80, if b = 0xED then 0x9F else 0xBF⟩)
  else if 0xF0 ≤ b ∧ b ≤ 0xF4 then
    ([], ⟨3, b % 8, if b = 0xF0 then 0x90 else 0x80, if b = 0xF4 then 0x8F else 0xBF⟩)
  else ([replacement], Utf8State.initial)

/-- Decoder step on one byte.  A byte that cannot continue the pending sequence ends it
with U+FFFD and is then read again as the start of a new sequence. -/
def utf8Step (st : Utf8State) (b : Nat) : List Char × Utf8State :=
  if st.needed = 0 then utf8Lead b
  else if b < st.lower ∨ st.upper < b then
    (replacement :: (utf8Lead b).1, (utf8Lead b).2)
  else
    let cp := st.codePoint * 64 + b % 64
    if st.needed = 1 then ([Char.ofNat cp], Utf8State.initial)
    else ([], ⟨st.needed - 1, cp, 0x80, 0xBF⟩)

/-- UTF-8 decoding with replacement; a sequence cut short by the end of input yields
one U+FFFD. -/
def utf8Decode (st : Utf8State) : Bytes → List Char
  | [] => if st.needed = 0 then [] else [replacement]
  | b :: bs => (utf8Step st b).1 ++ utf8Decode (utf8Step st b).2 bs

/-- The call `buf.toString()`: the buffer decoded as UTF-8, ill-formed input replaced by
U+FFFD, a leading byte order mark kept. -/
def Buffer.toString (buf : Bytes) : String := ⟨utf8Decode Utf8State.initial buf⟩

/-! ## Base64 -/

/-- UTF-16 code units of one scalar value: the value itself, or a surrogate pair for a
value outside the basic plane. -/
def utf16Units (c : Char) : List Nat :=
  let n := c.toNat
  if n < 0x10000 then [n]
  else [0xD800 + (n - 0x10000) / 1024, 0xDC00 + (n - 0x10000) % 1024]

/-- UTF-16 code units of a list of scalar values, the units of a JavaScript string. -/
def utf16 : List Char → List Nat
  | [] => []
  | c :: cs => utf16Units c ++ utf16 cs

/-- Value of a base64 digit given as a byte.  The decoder behind
`Buffer.from(_, "base64")` knows the standard alphabet and the URL-safe one; every other
byte has no value. -/
def unbase64 (n : Nat) : Option Nat :=
  if 65 ≤ n ∧ n ≤ 90 then some (n - 65)
  else if 97 ≤ n ∧ n ≤ 122 then some (n - 71)
  else if 48 ≤ n ∧ n ≤ 57 then some (n + 4)
  else if n = 43 ∨ n = 45 then some 62
  else if n = 47 ∨ n = 95 then some 63
  else none

/-- Bytes of a run of 6-bit digits, four digits to three bytes.  A final group of three
digits gives two bytes, of two digits one byte, and a single left-over digit none. -/
def base64DecodeGroups : List Nat → Bytes
  | a :: b :: c :: d :: rest =>
      (a * 4 + b / 16) :: (b % 16 * 16 + c / 4) :: (c % 4 * 64 + d) :: base64DecodeGroups rest
  | [a, b, c] => [a * 4 + b / 16, b % 16 * 16 + c / 4]
  | [a, b] => [a * 4 + b / 16]
  | _ => []

/-- The digits the decoder finds in a string given by its UTF-16 code units.  Every unit
is read by its low byte alone, so a unit above 255 counts as the character its low byte
spells.  Reading stops at the first unit whose low byte is `=` (61), and a unit whose low
byte is no base64 digit is skipped. -/
def base64Digits (units : List Nat) : List Nat :=
  ((units.map (fun u => u % 256)).takeWhile (fun b => b ≠ 61)).filterMap unbase64

/-- The call `Buffer.from(s, "base64")`.  Decoding is lenient and never fails: it reads
the digits of the string as `base64Digits` finds them and groups them into bytes. -/
def Buffer.fromBase64 (s : String) : Bytes :=
  base64DecodeGroups (base64Digits (utf16 s.data))

/-- Digit of the standard base64 alphabet (RFC 4648, section 4) for a value below 64. -/
def base64Digit (n : Nat) : Char :=
  if n < 26 then Char.ofNat (65 + n)
  else if n < 52 then Char.ofNat (71 + n)
  else if n < 62 then Char.ofNat (n - 4)
  else if n = 62 then '+' else '/'

/-- Standard base64 encoding with padding (RFC 4648, section 4), as a browser sends it. -/
def base64EncodeChars : Bytes → List Char
  | a :: b :: c :: rest =>
      base64Digit (a / 4) :: base64Digit (a % 4 * 16 + b / 16)
        :: base64Digit (b % 16 * 4 + c / 64) :: base64Digit (c % 64) :: base64EncodeChars rest
  | [a, b] =>
      [base64Digit (a / 4), base64Digit (a % 4 * 16 + b / 16), base64Digit (b % 16 * 4), '=']
  | [a] => [base64Digit (a / 4), base64Digit (a % 4 * 16), '=', '=']
  | [] => []

/-- Base64 text of a byte sequence. -/
def base64Encode (bytes : Bytes) : String := ⟨base64EncodeChars bytes⟩

/-! ## Splitting -/

/-- Fields of a character list between occurrences of `sep`. -/
def splitChars (sep : Char) : List Char → List (List Char)
  | [] => [[]]
  | c :: cs =>
    if c = sep then [] :: splitChars sep cs
    else match splitChars sep cs with
      | [] => [[c]]
      | field :: fields => (c :: field) :: fields

/-- The call `s.split(sep)` for a one-character separator: every occurrence separates two
fields, so adjacent separators give an empty field and the result is never empty. -/
def split (s : String) (sep : Char) : List String := (splitChars sep s.data).map String.mk

/-! ## Effects -/

/-- A `Response` as the middleware builds it: the body, and the status and headers given
in the second argument of the constructor. -/
structure Response where
  body : String
  status : Nat
  headers : List (String × String)
deriving DecidableEq, Repr

/-- An external call made while handling a request. -/
inductive Call where
  /-- The call `crypto.subtle.timingSafeEqual(a, b)`. -/
  | subtleTimingSafeEqual (a b : Bytes)
  /-- The construction `new Response(body, init)`. -/
  | newResponse (response : Response)
  /-- The call `context.next()`. -/
  | next
deriving DecidableEq, Repr

/-- How a function body completed. -/
inductive Completion (α : Type) where
  /-- Completed with `return value`. -/
  | normal (value : α)
  /-- Completed with `throw new Error(message)`. -/
  | throw (message : String)
deriving DecidableEq, Repr

/-- A finished execution: its completion and the external calls it made, in order. -/
structure Run (α : Type) where
  completion : Completion α
  calls : List Call
deriving DecidableEq, Repr

/-- An execution that returns `a` and calls nothing. -/
def Run.pure {α : Type} (a : α) : Run α := ⟨.normal a, []⟩

/-- Sequencing: a throw in `x` ends the execution, otherwise `f` runs on the value. -/
def Run.bind {α β : Type} (x : Run α) (f : α → Run β) : Run β :=
  match x.completion with
  | .throw message => ⟨.throw message, x.calls⟩
  | .normal a => ⟨(f a).completion, x.calls ++ (f a).calls⟩

instance : Monad Run where
  pure := Run.pure
  bind := Run.bind

/-- The statement `throw new Error(message)`. -/
def throwNewError {α : Type} (message : String) : Run α := ⟨.throw message, []⟩

/-- The expression `new Response(body, { status, headers })`. -/
def newResponse (body : String) (status : Nat) (headers : List (String × String)) :
    Run Response :=
  ⟨.normal ⟨body, status, headers⟩, [.newResponse ⟨body, status, headers⟩]⟩

/-- The platform primitive `crypto.subtle.timingSafeEqual(a, b)`: it throws when the two
buffers differ in byte length and otherwise says whether they hold the same bytes.  The
message stands for the platform's `TypeError`. -/
def crypto.subtle.timingSafeEqual (a b : Bytes) : Run Bool :=
  ⟨if a.length ≠ b.length then .throw "Input buffers must have the same byte length."
    else .normal (decide (a = b)),
   [.subtleTimingSafeEqual a b]⟩

/-! ## The middleware -/

/-- The function `timingSafeEqual(a, b)`. -/
def timingSafeEqual (a b : String) : Run Bool :=
  let aBytes := encoder.encode a
  let bBytes := encoder.encode b
  if aBytes.length ≠ bBytes.length then
    -- Strings must be the same length in order to compare
    -- with crypto.subtle.timingSafeEqual
    pure false
  else
    crypto.subtle.timingSafeEqual aBytes bBytes

/-- The function `promptToLogin()`. -/
def promptToLogin : Run Response :=
  newResponse "You need to login." 401
    [("WWW-Authenticate", "Basic realm=\"myrealm\", charset=\"UTF-8\"")]

/-- The bindings of `context.env` the middleware reads.  `none` is `undefined`. -/
structure Env where
  PASSWORD : Option String

/-- The request as the middleware reads it. -/
structure Request where
  /-- The value `new URL(request.url).pathname`. -/
  pathname : String
  /-- The value `request.headers.get("Authorization")`; `none` is `null`. -/
  authorization : Option String
  /-- The request method; the middleware does not read it. -/
  method : String
  /-- The query string of the URL; the middleware does not read it. -/
  search : String
  /-- The other request headers; the middleware does not read them. -/
  otherHeaders : List (String × String)

/-- The `context` argument: bindings, request, and the downstream continuation, whose
results are of type `R`. -/
structure Context (R : Type) where
  env : Env
  request : Request
  next : Unit → R

/-- What `authHandling` returns: a `Response` it built, or what `context.next()` gave. -/
inductive Returned (R : Type) where
  | response (r : Response)
  | downstream (r : R)
deriving DecidableEq, Repr

/-- The expression `context.next()`. -/
def callNext {R : Type} (context : Context R) : Run R :=
  ⟨.normal (context.next ()), [.next]⟩

/-- The function `authHandling(context)`.  A JavaScript test `!x` on a string-or-missing
value holds when the value is missing and when it is the empty string. -/
def authHandling {R : Type} (context : Context R) : Run (Returned R) :=
  match context.env.PASSWORD with
  | none => throwNewError "PASSWORD secret is not set"
  | some password =>
    if password = "" then throwNewError "PASSWORD secret is not set"
    else if context.request.pathname = "/logout" then do
      let r ← newResponse "Logged out." 401 []
      pure (.response r)
    else
      match context.request.authorization with
      | none => do
        let r ← promptToLogin
        pure (.response r)
      | some authorization =>
        if authorization = "" then do
          let r ← promptToLogin
          pure (.response r)
        else
          match split authorization ' ' with
          | scheme :: encoded :: _ =>
            if encoded = "" ∨ scheme ≠ "Basic" then do
              let r ← newResponse "Malformed authorization header." 400 []
              pure (.response r)
            else do
              let credentials := Buffer.toString (Buffer.fromBase64 encoded)
              let equal ← timingSafeEqual credentials password
              if ¬ equal then
                let r ← promptToLogin
                pure (.response r)
              else
                let r ← callNext context
                pure (.downstream r)
          | _ => do
            let r ← newResponse "Malformed authorization header." 400 []
            pure (.response r)

/-- The export `onRequest`: the middleware chain of the site. -/
def onRequest {R : Type} : List (Context R → Run (Returned R)) := [authHandling]

/-! ## Vocabulary of the specification -/

/-- The 401 challenge response of the specification: it carries `WWW-Authenticate`. -/
def challengeResponse : Response :=
  ⟨"You need to login.", 401,
    [("WWW-Authenticate", "Basic realm=\"myrealm\", charset=\"UTF-8\"")]⟩

/-- The 401 plain-denial response of the specification: it carries no header. -/
def loggedOutResponse : Response := ⟨"Logged out.", 401, []⟩

/-- The 400 malformed-request response of the specification. -/
def malformedResponse : Response := ⟨"Malformed authorization header.", 400, []⟩

/-- The scheme of a header value in the words of the specification: the text before the
first space, or all of it when it has no space. -/
def schemeOf (authorization : String) : String :=
  ⟨authorization.data.takeWhile (fun c => c ≠ ' ')⟩

/-- The token of a header value in the words of the specification: the text after the
first space, absent when the value has no space. -/
def tokenOf (authorization : String) : Option String :=
  match authorization.data.dropWhile (fun c => c ≠ ' ') with
  | [] => none
  | _ :: t => some ⟨t⟩

/-- Whether a response carries a header of the given name. -/
def Response.hasHeader (r : Response) (name : String) : Bool :=
  r.headers.any (fun h => h.1 == name)

/-- Number of times the downstream continuation was called in an execution. -/
def Run.nextCalls {α : Type} (x : Run α) : Nat := x.calls.count Call.next

/-- Whether an execution built a `Response`. -/
def Run.builtResponse {α : Type} (x : Run α) : Bool :=
  x.calls.any (fun c => match c with | .newResponse _ => true | _ => false)

/-- A context for the examples of the specification: a `GET` request without query or
other headers, and a downstream continuation that answers with the text `page`. -/
def exampleContext (password : Option String) (pathname : String)
    (authorization : Option String) : Context String :=
  ⟨⟨password⟩, ⟨pathname, authorization, "GET", "", []⟩, fun _ => "page"⟩

/-! ## UTF-8: decoding undoes encoding -/

theorem ofNat_toNat_self (c : Char) : Char.ofNat c.toNat = c :=
  Char.ofNat_toNat c

theorem char_range (c : Char) : c.toNat < 0xD800 ∨ (0xDFFF < c.toNat ∧ c.toNat < 0x110000) :=
  c.valid

theorem utf8Lead_ascii (b : Nat) (h : b ≤ 0x7F) :
    utf8Lead b = ([Char.ofNat b], Utf8State.initial) := by
  simp [utf8Lead, h]

theorem utf8Lead_two (b : Nat) (h1 : 0xC2 ≤ b) (h2 : b ≤ 0xDF) :
    utf8Lead b = ([], ⟨1, b % 32, 0x80, 0xBF⟩) := by
  have : ¬ b ≤ 0x7F := by omega
  simp [utf8Lead, this, h1, h2]

theorem utf8Lead_three (b : Nat) (h1 : 0xE0 ≤ b) (h2 : b ≤ 0xEF) :
    utf8Lead b = ([], ⟨2, b % 16, if b = 0xE0 then 0xA0 else 0x80,
      if b = 0xED then 0x9F else 0xBF⟩) := by
  have : ¬ b ≤ 0x7F := by omega
  have : ¬ (0xC2 ≤ b ∧ b ≤ 0xDF) := by omega
  simp [utf8Lead, *]

theorem utf8Lead_four (b : Nat) (h1 : 0xF0 ≤ b) (h2 : b ≤ 0xF4) :
    utf8Lead b = ([], ⟨3, b % 8, if b = 0xF0 then 0x90 else 0x80,
      if b = 0xF4 then 0x8F else 0xBF⟩) := by
  have : ¬ b ≤ 0x7F := by omega
  have : ¬ (0xC2 ≤ b ∧ b ≤ 0xDF) := by omega
  have : ¬ (0xE0 ≤ b ∧ b ≤ 0xEF) := by omega
  simp [utf8Lead, *]

theorem utf8Step_last (cp lo hi b : Nat) (h1 : lo ≤ b) (h2 : b ≤ hi) :
    utf8Step ⟨1, cp, lo, hi⟩ b = ([Char.ofNat (cp * 64 + b % 64)], Utf8State.initial) := by
  have : ¬ (b < lo ∨ hi < b) := by omega
  simp [utf8Step, this]

theorem utf8Step_more (k cp lo hi b : Nat) (h1 : lo ≤ b) (h2 : b ≤ hi) :
    utf8Step ⟨k + 2, cp, lo, hi⟩ b = ([], ⟨k + 1, cp * 64 + b % 64, 0x80, 0xBF⟩) := by
  have : ¬ (b < lo ∨ hi < b) := by omega
  simp [utf8Step, this]

theorem utf8Decode_cons (st : Utf8State) (b : Nat) (bs : Bytes) :
    utf8Decode st (b :: bs) = (utf8Step st b).1 ++ utf8Decode (utf8Step st b).2 bs := rfl

theorem utf8Step_initial (b : Nat) : utf8Step Utf8State.initial b = utf8Lead b := by
  simp [utf8Step, Utf8State.initial]

theorem utf8Decode_encodeChar (c : Char) (rest : Bytes) :
    utf8Decode Utf8State.initial (encodeChar c ++ rest)
      = c :: utf8Decode Utf8State.initial rest := by
  have hr := char_range c
  have hc := ofNat_toNat_self c
  generalize hn : c.toNat = n at hr hc
  unfold encodeChar
  simp only [hn]
  by_cases h1 : n < 0x80
  · simp only [h1, if_true, List.singleton_append, utf8Decode_cons, utf8Step_initial]
    rw [utf8Lead_ascii n (by omega)]
    simp [hc]
  · by_cases h2 : n < 0x800
    · simp only [h1, h2, if_true, if_false, List.cons_append, List.nil_append, utf8Decode_cons,
        utf8Step_initial]
      rw [utf8Lead_two _ (by omega) (by omega)]
      simp only [List.nil_append]
      rw [utf8Step_last _ _ _ _ (by omega) (by omega)]
      have : (192 + n / 64) % 32 * 64 + (128 + n % 64) % 64 = n := by omega
      rw [this, hc]; rfl
    · by_cases h3 : n < 0x10000
      · simp only [h1, h2, h3, if_true, if_false, List.cons_append, List.nil_append,
          utf8Decode_cons, utf8Step_initial]
        rw [utf8Lead_three _ (by omega) (by omega)]
        simp only [List.nil_append]
        rw [utf8Step_more _ _ _ _ _ (by split <;> omega) (by split <;> omega)]
        simp only [List.nil_append]
        rw [utf8Step_last _ _ _ _ (by omega) (by omega)]
        have : ((224 + n / 4096) % 16 * 64 + (128 + n / 64 % 64) % 64) * 64
            + (128 + n % 64) % 64 = n := by omega
        rw [this, hc]; rfl
      · simp only [h1, h2, h3, if_true, if_false, List.cons_append, List.nil_append,
          utf8Decode_cons, utf8Step_initial]
        rw [utf8Lead_four _ (by omega) (by omega)]
        simp only [List.nil_append]
        rw [utf8Step_more _ _ _ _ _ (by split <;> omega) (by split <;> omega)]
        simp only [List.nil_append]
        rw [utf8Step_more _ _ _ _ _ (by omega) (by omega)]
        simp only [List.nil_append]
        rw [utf8Step_last _ _ _ _ (by omega) (by omega)]
        have : (((240 + n / 262144) % 8 * 64 + (128 + n / 4096 % 64) % 64) * 64
            + (128 + n / 64 % 64) % 64) * 64 + (128 + n % 64) % 64 = n := by omega
        rw [this, hc]; rfl

theorem utf8Decode_encodeChars (cs : List Char) :
    utf8Decode Utf8State.initial (encodeChars cs) = cs := by
  induction cs with
  | nil => simp [encodeChars, utf8Decode, Utf8State.initial]
  | cons c cs ih => rw [encodeChars, utf8Decode_encodeChar, ih]

theorem toString_encode (s : String) : Buffer.toString (encoder.encode s) = s := by
  simp [Buffer.toString, encoder.encode, utf8Decode_encodeChars]

theorem encode_injective {a b : String} (h : encoder.encode a = encoder.encode b) : a = b := by
  rw [← toString_encode a, ← toString_encode b, h]

/-! ## Base64: decoding undoes encoding -/

theorem unbase64_base64Digit :
    ∀ n, n < 64 → unbase64 ((base64Digit n).toNat % 256) = some n := by
  decide

theorem utf16Units_base64Digit :
    ∀ n, n < 64 → utf16Units (base64Digit n) = [(base64Digit n).toNat] := by
  decide

theorem base64Digit_low_byte_ne_pad : ∀ n, n < 64 → (base64Digit n).toNat % 256 ≠ 61 := by
  decide

theorem base64Digit_ne_pad : ∀ n, n < 64 → base64Digit n ≠ '=' := by
  decide

theorem base64Digit_ne_space : ∀ n, n < 64 → base64Digit n ≠ ' ' := by
  decide

/-- Digits of a text that starts with a base64 digit. -/
theorem digits_cons (n : Nat) (h : n < 64) (l : List Char) :
    base64Digits (utf16 (base64Digit n :: l)) = n :: base64Digits (utf16 l) := by
  have h1 := base64Digit_low_byte_ne_pad n h
  have h2 := unbase64_base64Digit n h
  have h3 := utf16Units_base64Digit n h
  simp [base64Digits, utf16, h3, List.takeWhile_cons, h1, List.filterMap_cons, h2]

theorem digits_pad (l : List Char) : base64Digits (utf16 ('=' :: l)) = [] := by
  have h : utf16Units '=' = [61] := by decide
  simp [base64Digits, utf16, h, List.takeWhile_cons]

theorem base64_roundtrip_chars (bytes : Bytes) (h : ∀ b ∈ bytes, b < 256) :
    base64DecodeGroups (base64Digits (utf16 (base64EncodeChars bytes))) = bytes := by
  induction bytes using base64EncodeChars.induct with
  | case1 a b c rest ih =>
    have ha : a < 256 := h a (by simp)
    have hb : b < 256 := h b (by simp)
    have hc : c < 256 := h c (by simp)
    have ih := ih (fun x hx => h x (by simp [hx]))
    rw [base64EncodeChars, digits_cons _ (by omega), digits_cons _ (by omega),
      digits_cons _ (by omega), digits_cons _ (by omega), base64DecodeGroups, ih]
    congr 1
    · omega
    · congr 1
      · omega
      · congr 1
        omega
  | case2 a b =>
    have ha : a < 256 := h a (by simp)
    have hb : b < 256 := h b (by simp)
    rw [base64EncodeChars, digits_cons _ (by omega), digits_cons _ (by omega),
      digits_cons _ (by omega), digits_pad, base64DecodeGroups]
    congr 1
    · omega
    · congr 1
      omega
  | case3 a =>
    have ha : a < 256 := h a (by simp)
    rw [base64EncodeChars, digits_cons _ (by omega), digits_cons _ (by omega), digits_pad,
      base64DecodeGroups]
    congr 1
    omega
  | case4 => simp [base64EncodeChars, base64DecodeGroups, base64Digits, utf16]

/-- A unit above 255 is read by its low byte: U+0141 counts as the digit `A`, and the
first unit of the surrogate pair of U+1F600, whose low byte is 61, ends the reading. -/
theorem fromBase64_low_byte :
    Buffer.fromBase64 "c2VjŁcmV0MTIz" = [115, 101, 99, 1, 201, 149, 208, 196, 200] ∧
    Buffer.toString (Buffer.fromBase64 "YWJj😀ZGVm") = "abc" ∧
    Buffer.toString (Buffer.fromBase64 "ţ2VjcmV0MTIz") = "secret123" := by
  decide

/-- Runs on tokens with units above 255, with secret `secret123`.  Twelve units whose low
bytes spell `c2VjcmV0MTIz` decode to the secret, also when followed by U+013D, whose low
byte is 61 and ends the reading, and by more digits: both requests are forwarded. -/
theorem authHandling_low_byte_tokens :
    Buffer.toString (Buffer.fromBase64 "ţĲŖŪţŭŖİōŔŉź") = "secret123" ∧
    Buffer.toString (Buffer.fromBase64 "ţĲŖŪţŭŖİōŔŉźĽOnNlY3JldDEyMw==")
      = "secret123" ∧
    (authHandling (exampleContext (some "secret123") "/"
        (some "Basic ţĲŖŪţŭŖİōŔŉź"))).completion = .normal (.downstream "page") ∧
    (authHandling (exampleContext (some "secret123") "/"
        (some "Basic ţĲŖŪţŭŖİōŔŉźĽOnNlY3JldDEyMw=="))).completion
      = .normal (.downstream "page") := by
  decide

theorem fromBase64_base64Encode (bytes : Bytes) (h : ∀ b ∈ bytes, b < 256) :
    Buffer.fromBase64 (base64Encode bytes) = bytes := by
  simpa [Buffer.fromBase64, base64Encode] using base64_roundtrip_chars bytes h

theorem encodeChar_lt (c : Char) : ∀ b ∈ encodeChar c, b < 256 := by
  have hr := char_range c
  unfold encodeChar
  intro b hb
  simp only at hb
  split at hb
  · simp at hb; omega
  · split at hb
    · simp at hb; omega
    · split at hb
      · simp at hb; omega
      · simp at hb; omega

theorem encodeChars_lt (cs : List Char) : ∀ b ∈ encodeChars cs, b < 256 := by
  induction cs with
  | nil => simp [encodeChars]
  | cons c cs ih =>
    intro b hb
    simp only [encodeChars, List.mem_append] at hb
    rcases hb with hb | hb
    · exact encodeChar_lt c b hb
    · exact ih b hb

theorem encode_lt (s : String) : ∀ b ∈ encoder.encode s, b < 256 :=
  encodeChars_lt s.data

/-- Decoding the base64 text of a string's UTF-8 bytes gives the string back. -/
theorem toString_fromBase64_base64Encode (s : String) :
    Buffer.toString (Buffer.fromBase64 (base64Encode (encoder.encode s))) = s := by
  rw [fromBase64_base64Encode _ (encode_lt s), toString_encode]

theorem base64EncodeChars_no_space (bytes : Bytes) (h : ∀ b ∈ bytes, b < 256) :
    ' ' ∉ base64EncodeChars bytes := by
  induction bytes using base64EncodeChars.induct with
  | case1 a b c rest ih =>
    have ha : a < 256 := h a (by simp)
    have hb : b < 256 := h b (by simp)
    have hc : c < 256 := h c (by simp)
    have ih := ih (fun x hx => h x (by simp [hx]))
    have h1 := base64Digit_ne_space (a / 4) (by omega)
    have h2 := base64Digit_ne_space (a % 4 * 16 + b / 16) (by omega)
    have h3 := base64Digit_ne_space (b % 16 * 4 + c / 64) (by omega)
    have h4 := base64Digit_ne_space (c % 64) (by omega)
    simp only [base64EncodeChars, List.mem_cons, not_or]
    exact ⟨Ne.symm h1, Ne.symm h2, Ne.symm h3, Ne.symm h4, ih⟩
  | case2 a b =>
    have ha : a < 256 := h a (by simp)
    have hb : b < 256 := h b (by simp)
    have h1 := base64Digit_ne_space (a / 4) (by omega)
    have h2 := base64Digit_ne_space (a % 4 * 16 + b / 16) (by omega)
    have h3 := base64Digit_ne_space (b % 16 * 4) (by omega)
    simp only [base64EncodeChars, List.mem_cons, not_or, List.mem_singleton]
    exact ⟨Ne.symm h1, Ne.symm h2, Ne.symm h3, by decide⟩
  | case3 a =>
    have ha : a < 256 := h a (by simp)
    have h1 := base64Digit_ne_space (a / 4) (by omega)
    have h2 := base64Digit_ne_space (a % 4 * 16) (by omega)
    simp only [base64EncodeChars, List.mem_cons, not_or, List.mem_singleton]
    exact ⟨Ne.symm h1, Ne.symm h2, by decide, by decide⟩
  | case4 => simp [base64EncodeChars]

theorem base64EncodeChars_ne_nil (bytes : Bytes) (h : bytes ≠ []) :
    base64EncodeChars bytes ≠ [] := by
  cases bytes using base64EncodeChars.induct with
  | case1 a b c rest => simp [base64EncodeChars]
  | case2 a b => simp [base64EncodeChars]
  | case3 a => simp [base64EncodeChars]
  | case4 => exact absurd rfl h

theorem encodeChar_ne_nil (c : Char) : encodeChar c ≠ [] := by
  unfold encodeChar
  simp only
  split_ifs <;> simp

theorem encode_ne_nil (s : String) (h : s ≠ "") : encoder.encode s ≠ [] := by
  obtain ⟨cs⟩ := s
  cases cs with
  | nil => exact absurd rfl h
  | cons c cs =>
    have := encodeChar_ne_nil c
    simp [encoder.encode, encodeChars, this]

/-! ## Splitting -/

theorem splitChars_ne_nil (sep : Char) (l : List Char) : splitChars sep l ≠ [] := by
  cases l with
  | nil => simp [splitChars]
  | cons c cs =>
    simp only [splitChars]
    split_ifs
    · simp
    · split <;> simp

/-- The first field is the text before the first separator; the other fields are those
of the text after it, and there are none when no separator occurs. -/
theorem splitChars_eq (sep : Char) (l : List Char) :
    splitChars sep l = l.takeWhile (fun c => c ≠ sep) ::
      (match l.dropWhile (fun c => c ≠ sep) with
        | [] => []
        | _ :: t => splitChars sep t) := by
  induction l with
  | nil => simp [splitChars]
  | cons c cs ih =>
    by_cases hc : c = sep
    · simp [splitChars, hc, List.takeWhile_cons, List.dropWhile_cons]
    · simp only [splitChars, hc, if_false]
      rw [ih]
      simp [List.takeWhile_cons, List.dropWhile_cons, hc]

theorem splitChars_of_not_mem (sep : Char) (l : List Char) (h : sep ∉ l) :
    splitChars sep l = [l] := by
  induction l with
  | nil => simp [splitChars]
  | cons c cs ih =>
    have hc : c ≠ sep := fun e => h (by simp [e])
    have hcs : sep ∉ cs := fun e => h (by simp [e])
    simp [splitChars, hc, ih hcs]

theorem splitChars_append_sep (sep : Char) (l r : List Char) (h : sep ∉ l) :
    splitChars sep (l ++ sep :: r) = l :: splitChars sep r := by
  induction l with
  | nil => simp [splitChars]
  | cons c cs ih =>
    have hc : c ≠ sep := fun e => h (by simp [e])
    have hcs : sep ∉ cs := fun e => h (by simp [e])
    simp [splitChars, hc, ih hcs]

/-! ## The branches of `authHandling` -/

theorem timingSafeEqual_eq (a b : String) :
    timingSafeEqual a b =
      if (encoder.encode a).length ≠ (encoder.encode b).length then ⟨.normal false, []⟩
      else ⟨.normal (decide (encoder.encode a = encoder.encode b)),
        [.subtleTimingSafeEqual (encoder.encode a) (encoder.encode b)]⟩ := by
  unfold timingSafeEqual
  by_cases h : (encoder.encode a).length ≠ (encoder.encode b).length
  · rw [if_pos h, if_pos h]; rfl
  · rw [if_neg h, if_neg h]
    simp only [crypto.subtle.timingSafeEqual, if_neg h]

theorem timingSafeEqual_of_eq (a b : String) (h : encoder.encode a = encoder.encode b) :
    timingSafeEqual a b =
      ⟨.normal true, [.subtleTimingSafeEqual (encoder.encode a) (encoder.encode b)]⟩ := by
  rw [timingSafeEqual_eq]
  simp [h]

theorem timingSafeEqual_of_ne (a b : String) (h : encoder.encode a ≠ encoder.encode b) :
    timingSafeEqual a b =
      ⟨.normal false,
        if (encoder.encode a).length ≠ (encoder.encode b).length then []
        else [.subtleTimingSafeEqual (encoder.encode a) (encoder.encode b)]⟩ := by
  rw [timingSafeEqual_eq]
  by_cases hl : (encoder.encode a).length ≠ (encoder.encode b).length
  · simp [hl]
  · simp [hl, h]

theorem authHandling_unset {R : Type} (context : Context R)
    (h : context.env.PASSWORD = none ∨ context.env.PASSWORD = some "") :
    authHandling context = ⟨.throw "PASSWORD secret is not set", []⟩ := by
  unfold authHandling
  rcases h with h | h <;> simp [h, throwNewError]

theorem authHandling_logout {R : Type} (context : Context R) (password : String)
    (hp : context.env.PASSWORD = some password) (hne : password ≠ "")
    (hpath : context.request.pathname = "/logout") :
    authHandling context
      = ⟨.normal (.response loggedOutResponse), [.newResponse loggedOutResponse]⟩ := by
  unfold authHandling
  simp only [hp, hne, hpath, if_true, if_false]
  rfl

theorem authHandling_no_header {R : Type} (context : Context R) (password : String)
    (hp : context.env.PASSWORD = some password) (hne : password ≠ "")
    (hpath : context.request.pathname ≠ "/logout")
    (ha : context.request.authorization = none ∨ context.request.authorization = some "") :
    authHandling context
      = ⟨.normal (.response challengeResponse), [.newResponse challengeResponse]⟩ := by
  unfold authHandling
  rcases ha with ha | ha <;> simp only [hp, hne, hpath, ha, if_true, if_false] <;> rfl

theorem authHandling_one_field {R : Type} (context : Context R) (password authorization : String)
    (field : String)
    (hp : context.env.PASSWORD = some password) (hne : password ≠ "")
    (hpath : context.request.pathname ≠ "/logout")
    (ha : context.request.authorization = some authorization) (hh : authorization ≠ "")
    (hs : split authorization ' ' = [field]) :
    authHandling context
      = ⟨.normal (.response malformedResponse), [.newResponse malformedResponse]⟩ := by
  unfold authHandling
  simp only [hp, hne, hpath, ha, hh, hs, if_true, if_false]
  rfl

theorem authHandling_malformed {R : Type} (context : Context R) (password authorization : String)
    (scheme encoded : String) (rest : List String)
    (hp : context.env.PASSWORD = some password) (hne : password ≠ "")
    (hpath : context.request.pathname ≠ "/logout")
    (ha : context.request.authorization = some authorization) (hh : authorization ≠ "")
    (hs : split authorization ' ' = scheme :: encoded :: rest)
    (hm : encoded = "" ∨ scheme ≠ "Basic") :
    authHandling context
      = ⟨.normal (.response malformedResponse), [.newResponse malformedResponse]⟩ := by
  unfold authHandling
  simp only [hp, hne, hpath, ha, hh, hs, hm, if_true, if_false]
  rfl

theorem authHandling_denied {R : Type} (context : Context R) (password authorization : String)
    (encoded : String) (rest : List String)
    (hp : context.env.PASSWORD = some password) (hne : password ≠ "")
    (hpath : context.request.pathname ≠ "/logout")
    (ha : context.request.authorization = some authorization) (hh : authorization ≠ "")
    (hs : split authorization ' ' = "Basic" :: encoded :: rest) (he : encoded ≠ "")
    (hc : encoder.encode (Buffer.toString (Buffer.fromBase64 encoded))
      ≠ encoder.encode password) :
    authHandling context
      = ⟨.normal (.response challengeResponse),
          (timingSafeEqual (Buffer.toString (Buffer.fromBase64 encoded)) password).calls
            ++ [.newResponse challengeResponse]⟩ := by
  unfold authHandling
  have hm : ¬ (encoded = "" ∨ "Basic" ≠ "Basic") := by simp [he]
  simp only [hp, hne, hpath, ha, hh, hs, hm, if_true, if_false]
  rw [timingSafeEqual_of_ne _ _ hc]
  rfl

theorem authHandling_passed {R : Type} (context : Context R) (password authorization : String)
    (encoded : String) (rest : List String)
    (hp : context.env.PASSWORD = some password) (hne : password ≠ "")
    (hpath : context.request.pathname ≠ "/logout")
    (ha : context.request.authorization = some authorization) (hh : authorization ≠ "")
    (hs : split authorization ' ' = "Basic" :: encoded :: rest) (he : encoded ≠ "")
    (hc : encoder.encode (Buffer.toString (Buffer.fromBase64 encoded))
      = encoder.encode password) :
    authHandling context
      = ⟨.normal (.downstream (context.next ())),
          [.subtleTimingSafeEqual (encoder.encode password) (encoder.encode password),
            .next]⟩ := by
  unfold authHandling
  have hm : ¬ (encoded = "" ∨ "Basic" ≠ "Basic") := by simp [he]
  simp only [hp, hne, hpath, ha, hh, hs, hm, if_true, if_false]
  rw [timingSafeEqual_of_eq _ _ hc, hc]
  rfl

theorem split_ne_nil (s : String) (sep : Char) : split s sep ≠ [] := by
  simp [split, splitChars_ne_nil]

theorem split_empty (sep : Char) : split "" sep = [""] := rfl

/-- The path `authHandling` takes, read off the bindings and the request. -/
theorem authHandling_cases {R : Type} (context : Context R) :
    ((context.env.PASSWORD = none ∨ context.env.PASSWORD = some "") ∧
      authHandling context = ⟨.throw "PASSWORD secret is not set", []⟩)
    ∨ (∃ password, context.env.PASSWORD = some password ∧ password ≠ "" ∧
        ((context.request.pathname = "/logout" ∧
          authHandling context
            = ⟨.normal (.response loggedOutResponse), [.newResponse loggedOutResponse]⟩)
        ∨ (context.request.pathname ≠ "/logout" ∧
            (context.request.authorization = none ∨ context.request.authorization = some "") ∧
            authHandling context
              = ⟨.normal (.response challengeResponse), [.newResponse challengeResponse]⟩)
        ∨ (∃ authorization, context.request.pathname ≠ "/logout" ∧
            context.request.authorization = some authorization ∧ authorization ≠ "" ∧
            ((∀ encoded rest, split authorization ' ' = "Basic" :: encoded :: rest →
                encoded = "") ∧
              authHandling context
                = ⟨.normal (.response malformedResponse), [.newResponse malformedResponse]⟩
            ∨ ∃ encoded rest, split authorization ' ' = "Basic" :: encoded :: rest ∧
                encoded ≠ "" ∧
                ((encoder.encode (Buffer.toString (Buffer.fromBase64 encoded))
                    ≠ encoder.encode password ∧
                  authHandling context
                    = ⟨.normal (.response challengeResponse),
                        (timingSafeEqual (Buffer.toString (Buffer.fromBase64 encoded))
                          password).calls ++ [.newResponse challengeResponse]⟩)
                ∨ (encoder.encode (Buffer.toString (Buffer.fromBase64 encoded))
                    = encoder.encode password ∧
                  authHandling context
                    = ⟨.normal (.downstream (context.next ())),
                        [.subtleTimingSafeEqual (encoder.encode password)
                          (encoder.encode password), .next]⟩)))))) := by
  rcases hpw : context.env.PASSWORD with _ | password
  · exact Or.inl ⟨Or.inl rfl, authHandling_unset context (Or.inl hpw)⟩
  by_cases hne : password = ""
  · subst hne
    exact Or.inl ⟨Or.inr rfl, authHandling_unset context (Or.inr hpw)⟩
  refine Or.inr ⟨password, rfl, hne, ?_⟩
  by_cases hpath : context.request.pathname = "/logout"
  · exact Or.inl ⟨hpath, authHandling_logout context password hpw hne hpath⟩
  rcases ha : context.request.authorization with _ | authorization
  · exact Or.inr (Or.inl ⟨hpath, Or.inl rfl,
      authHandling_no_header context password hpw hne hpath (Or.inl ha)⟩)
  by_cases hh : authorization = ""
  · subst hh
    exact Or.inr (Or.inl ⟨hpath, Or.inr rfl,
      authHandling_no_header context password hpw hne hpath (Or.inr ha)⟩)
  refine Or.inr (Or.inr ⟨authorization, hpath, rfl, hh, ?_⟩)
  rcases hs : split authorization ' ' with _ | ⟨scheme, _ | ⟨encoded, rest⟩⟩
  · exact absurd hs (split_ne_nil _ _)
  · refine Or.inl ⟨fun e r h => by simp at h, ?_⟩
    exact authHandling_one_field context password authorization scheme hpw hne hpath ha hh hs
  by_cases hm : encoded = "" ∨ scheme ≠ "Basic"
  · refine Or.inl ⟨fun e r h => ?_, ?_⟩
    · simp only [List.cons.injEq] at h
      rcases hm with hm | hm
      · rw [← h.2.1]; exact hm
      · exact absurd h.1 hm
    · exact authHandling_malformed context password authorization scheme encoded rest
        hpw hne hpath ha hh hs hm
  have he : encoded ≠ "" := fun e => hm (Or.inl e)
  have hsch : scheme = "Basic" := by
    by_contra e
    exact hm (Or.inr e)
  subst hsch
  refine Or.inr ⟨encoded, rest, rfl, he, ?_⟩
  by_cases hc : encoder.encode (Buffer.toString (Buffer.fromBase64 encoded))
      = encoder.encode password
  · exact Or.inr ⟨hc, authHandling_passed context password authorization encoded rest
      hpw hne hpath ha hh hs he hc⟩
  · exact Or.inl ⟨hc, authHandling_denied context password authorization encoded rest
      hpw hne hpath ha hh hs he hc⟩

theorem next_not_mem_timingSafeEqual_calls (a b : String) :
    Call.next ∉ (timingSafeEqual a b).calls := by
  rw [timingSafeEqual_eq]
  split_ifs <;> simp

theorem count_next_timingSafeEqual_calls (a b : String) :
    (timingSafeEqual a b).calls.count Call.next = 0 :=
  List.count_eq_zero.mpr (next_not_mem_timingSafeEqual_calls a b)

theorem schemeOf_eq_head (authorization : String) :
    (split authorization ' ').head? = some (schemeOf authorization) := by
  simp only [split, schemeOf]
  rw [splitChars_eq]
  simp

theorem split_of_tokenOf_none (authorization : String) (h : tokenOf authorization = none) :
    split authorization ' ' = [schemeOf authorization] := by
  simp only [split, schemeOf]
  rw [splitChars_eq]
  unfold tokenOf at h
  split at h
  · rename_i heq
    simp [heq]
  · simp at h

theorem split_of_tokenOf_some (authorization token : String)
    (h : tokenOf authorization = some token) :
    split authorization ' ' = schemeOf authorization :: split token ' ' := by
  simp only [split, schemeOf]
  rw [splitChars_eq]
  unfold tokenOf at h
  split at h
  · simp at h
  · rename_i c t heq
    simp only [Option.some.injEq] at h
    subst h
    simp [heq]

theorem split_basic (token : String) (h : ' ' ∉ token.data) :
    split ("Basic " ++ token) ' ' = ["Basic", token] := by
  have hdata : ("Basic " ++ token).data = "Basic".data ++ ' ' :: token.data := by
    rw [String.data_append]
    rfl
  simp only [split, hdata]
  rw [splitChars_append_sep ' ' "Basic".data token.data (by decide),
    splitChars_of_not_mem ' ' token.data h]
  rfl

theorem base64Encode_encode_no_space (s : String) :
    ' ' ∉ (base64Encode (encoder.encode s)).data :=
  base64EncodeChars_no_space _ (encode_lt s)

theorem base64Encode_encode_ne_empty (s : String) (h : s ≠ "") :
    base64Encode (encoder.encode s) ≠ "" := by
  intro e
  have h1 := base64EncodeChars_ne_nil _ (encode_ne_nil s h)
  apply h1
  have := congrArg String.data e
  simpa [base64Encode] using this

/-! ## The claims -/

/-- C1: whenever `authHandling` forwards a request (it called `context.next()`, or it
returned the continuation's result), the secret is set, an `Authorization` header was
supplied, its scheme is exactly `Basic` and is followed by a non-empty token, and the
credential decoded from the token is equal to the secret, as a string and byte for
byte.  So the continuation is never called on a missing, malformed or different
credential. -/
theorem authHandling_forwards_only_matching_credential {R : Type} (context : Context R)
    (h : Call.next ∈ (authHandling context).calls
      ∨ ∃ r, (authHandling context).completion = .normal (.downstream r)) :
    ∃ password authorization encoded rest,
      context.env.PASSWORD = some password ∧ password ≠ "" ∧
      context.request.authorization = some authorization ∧
      split authorization ' ' = "Basic" :: encoded :: rest ∧
      schemeOf authorization = "Basic" ∧ encoded ≠ "" ∧
      (∃ token, tokenOf authorization = some token ∧ token ≠ "") ∧
      Buffer.toString (Buffer.fromBase64 encoded) = password ∧
      encoder.encode (Buffer.toString (Buffer.fromBase64 encoded))
        = encoder.encode password := by
  have hnot : ∀ {x : Run (Returned R)} (r : Response) (calls : List Call),
      x = ⟨.normal (.response r), calls⟩ → Call.next ∉ calls →
      ¬ (Call.next ∈ x.calls ∨ ∃ r, x.completion = .normal (.downstream r)) := by
    intro x r calls hx hc
    subst hx
    simp [hc]
  rcases authHandling_cases context with ⟨_, hrun⟩ | ⟨password, hpw, hne, hrest⟩
  · rw [hrun] at h
    simp at h
  rcases hrest with ⟨_, hrun⟩ | ⟨_, _, hrun⟩ | ⟨authorization, _, ha, hh, hrest⟩
  · exact absurd h (hnot _ _ hrun (by simp))
  · exact absurd h (hnot _ _ hrun (by simp))
  rcases hrest with ⟨_, hrun⟩ | ⟨encoded, rest, hs, he, hrest⟩
  · exact absurd h (hnot _ _ hrun (by simp))
  rcases hrest with ⟨_, hrun⟩ | ⟨hc, _⟩
  · refine absurd h (hnot _ _ hrun ?_)
    simp [next_not_mem_timingSafeEqual_calls]
  refine ⟨password, authorization, encoded, rest, hpw, hne, ha, hs, ?_, he, ?_,
    encode_injective hc, hc⟩
  · have := schemeOf_eq_head authorization
    rw [hs] at this
    simp only [List.head?_cons, Option.some.injEq] at this
    exact this.symm
  · cases ht : tokenOf authorization with
    | none =>
      rw [split_of_tokenOf_none authorization ht] at hs
      simp at hs
    | some token =>
      refine ⟨token, rfl, ?_⟩
      rintro rfl
      rw [split_of_tokenOf_some authorization "" ht, split_empty] at hs
      simp only [List.cons.injEq] at hs
      exact he hs.2.1.symm

/-- Witness of C1 on the request `Authorization: Basic c2VjcmV0MTIz` with secret
`secret123`, which is forwarded, and on the token that starts with U+0163, read as `c`,
which is forwarded too and decodes to the secret. -/
theorem authHandling_forwards_only_matching_credential_witness :
    (Call.next ∈ (authHandling (exampleContext (some "secret123") "/"
        (some "Basic ţ2VjcmV0MTIz"))).calls ∧
      Buffer.toString (Buffer.fromBase64 "ţ2VjcmV0MTIz") = "secret123" ∧
      ∃ password authorization encoded rest,
        (exampleContext (some "secret123") "/" (some "Basic ţ2VjcmV0MTIz")).env.PASSWORD
          = some password ∧ password ≠ "" ∧
        (exampleContext (some "secret123") "/"
          (some "Basic ţ2VjcmV0MTIz")).request.authorization = some authorization ∧
        split authorization ' ' = "Basic" :: encoded :: rest ∧
        schemeOf authorization = "Basic" ∧ encoded ≠ "" ∧
        (∃ token, tokenOf authorization = some token ∧ token ≠ "") ∧
        Buffer.toString (Buffer.fromBase64 encoded) = password ∧
        encoder.encode (Buffer.toString (Buffer.fromBase64 encoded))
          = encoder.encode password) ∧
    Call.next ∈ (authHandling (exampleContext (some "secret123") "/"
        (some "Basic c2VjcmV0MTIz"))).calls ∧
    ∃ password authorization encoded rest,
      (exampleContext (some "secret123") "/" (some "Basic c2VjcmV0MTIz")).env.PASSWORD
        = some password ∧ password ≠ "" ∧
      (exampleContext (some "secret123") "/"
        (some "Basic c2VjcmV0MTIz")).request.authorization = some authorization ∧
      split authorization ' ' = "Basic" :: encoded :: rest ∧
      schemeOf authorization = "Basic" ∧ encoded ≠ "" ∧
      (∃ token, tokenOf authorization = some token ∧ token ≠ "") ∧
      Buffer.toString (Buffer.fromBase64 encoded) = password ∧
      encoder.encode (Buffer.toString (Buffer.fromBase64 encoded))
        = encoder.encode password :=
  ⟨⟨by decide, by decide,
      authHandling_forwards_only_matching_credential
        (exampleContext (some "secret123") "/" (some "Basic ţ2VjcmV0MTIz"))
        (Or.inl (by decide))⟩,
    by decide,
    authHandling_forwards_only_matching_credential
      (exampleContext (some "secret123") "/" (some "Basic c2VjcmV0MTIz"))
      (Or.inl (by decide))⟩

/-- C2: when the comparison step is reached (secret set, that is `PASSWORD` non-empty,
path other than `/logout`, header parsed into the scheme `Basic` and a non-empty token)
and the decoded credential
equals the secret, `authHandling` returns exactly the value of `context.next()`, calls
the continuation exactly once and builds no `Response` of its own. -/
theorem authHandling_accepts_matching_credential {R : Type} (context : Context R)
    (password authorization encoded : String) (rest : List String)
    (hp : context.env.PASSWORD = some password) (hne : password ≠ "")
    (hpath : context.request.pathname ≠ "/logout")
    (ha : context.request.authorization = some authorization)
    (hs : split authorization ' ' = "Basic" :: encoded :: rest) (he : encoded ≠ "")
    (hc : Buffer.toString (Buffer.fromBase64 encoded) = password) :
    (authHandling context).completion = .normal (.downstream (context.next ())) ∧
    (authHandling context).nextCalls = 1 ∧
    (authHandling context).builtResponse = false := by
  have hh : authorization ≠ "" := by
    rintro rfl
    rw [split_empty] at hs
    simp at hs
  rw [authHandling_passed context password authorization encoded rest hp hne hpath ha hh hs he
    (by rw [hc])]
  simp [Run.nextCalls, Run.builtResponse]

/-- Witness of C2 on the request `Authorization: Basic c2VjcmV0MTIz` with secret
`secret123`, and on the token that starts with U+0163, which the decoder reads as `c`. -/
theorem authHandling_accepts_matching_credential_witness :
    ((authHandling (exampleContext (some "secret123") "/index.html"
        (some "Basic c2VjcmV0MTIz"))).completion = .normal (.downstream "page") ∧
      (authHandling (exampleContext (some "secret123") "/index.html"
        (some "Basic c2VjcmV0MTIz"))).nextCalls = 1 ∧
      (authHandling (exampleContext (some "secret123") "/index.html"
        (some "Basic c2VjcmV0MTIz"))).builtResponse = false) ∧
    ((authHandling (exampleContext (some "secret123") "/"
        (some "Basic ţ2VjcmV0MTIz"))).completion = .normal (.downstream "page") ∧
      (authHandling (exampleContext (some "secret123") "/"
        (some "Basic ţ2VjcmV0MTIz"))).nextCalls = 1 ∧
      (authHandling (exampleContext (some "secret123") "/"
        (some "Basic ţ2VjcmV0MTIz"))).builtResponse = false) :=
  ⟨authHandling_accepts_matching_credential
      (exampleContext (some "secret123") "/index.html" (some "Basic c2VjcmV0MTIz"))
      "secret123" "Basic c2VjcmV0MTIz" "c2VjcmV0MTIz" [] rfl (by decide) (by decide) rfl
      (by decide) (by decide) (by decide),
    authHandling_accepts_matching_credential
      (exampleContext (some "secret123") "/" (some "Basic ţ2VjcmV0MTIz"))
      "secret123" "Basic ţ2VjcmV0MTIz" "ţ2VjcmV0MTIz" [] rfl (by decide) (by decide) rfl
      (by decide) (by decide) (by decide)⟩

/-- C3: when the comparison step is reached (secret set, that is `PASSWORD` non-empty, path
other than `/logout`, header parsed into the scheme `Basic` and a non-empty token) and
the decoded credential is not byte for byte the UTF-8 encoding of the secret,
`authHandling` returns status 401 with body `You need to login.` and the header
`WWW-Authenticate` of value `Basic realm="myrealm", charset="UTF-8"`; it is the response
returned to the same request without `Authorization` header, and the continuation is not
called. -/
theorem authHandling_rejects_other_credential {R : Type} (context : Context R)
    (password authorization encoded : String) (rest : List String)
    (hp : context.env.PASSWORD = some password) (hne : password ≠ "")
    (hpath : context.request.pathname ≠ "/logout")
    (ha : context.request.authorization = some authorization)
    (hs : split authorization ' ' = "Basic" :: encoded :: rest) (he : encoded ≠ "")
    (hc : encoder.encode (Buffer.toString (Buffer.fromBase64 encoded))
      ≠ encoder.encode password) :
    (authHandling context).completion
      = .normal (.response ⟨"You need to login.", 401,
          [("WWW-Authenticate", "Basic realm=\"myrealm\", charset=\"UTF-8\"")]⟩) ∧
    (authHandling context).completion
      = (authHandling { context with
          request := { context.request with authorization := none } }).completion ∧
    (authHandling context).nextCalls = 0 := by
  have hh : authorization ≠ "" := by
    rintro rfl
    rw [split_empty] at hs
    simp at hs
  rw [authHandling_denied context password authorization encoded rest hp hne hpath ha hh hs he
    hc]
  rw [authHandling_no_header { context with
    request := { context.request with authorization := none } } password hp hne hpath
    (Or.inl rfl)]
  refine ⟨rfl, rfl, ?_⟩
  simp [Run.nextCalls, count_next_timingSafeEqual_calls]

/-- Witness of C3 on the request `Authorization: Basic d3Jvbmc=` (the text `wrong`) with
secret `secret123`, and on the right token with U+0141 put inside, which the decoder
reads as the digit `A`. -/
theorem authHandling_rejects_other_credential_witness :
    ((authHandling (exampleContext (some "secret123") "/"
        (some "Basic d3Jvbmc="))).completion
      = .normal (.response ⟨"You need to login.", 401,
          [("WWW-Authenticate", "Basic realm=\"myrealm\", charset=\"UTF-8\"")]⟩) ∧
    (authHandling (exampleContext (some "secret123") "/"
        (some "Basic d3Jvbmc="))).completion
      = (authHandling (exampleContext (some "secret123") "/" none)).completion ∧
    (authHandling (exampleContext (some "secret123") "/"
        (some "Basic d3Jvbmc="))).nextCalls = 0) ∧
    ((authHandling (exampleContext (some "secret123") "/"
        (some "Basic c2VjŁcmV0MTIz"))).completion
      = .normal (.response ⟨"You need to login.", 401,
          [("WWW-Authenticate", "Basic realm=\"myrealm\", charset=\"UTF-8\"")]⟩) ∧
    (authHandling (exampleContext (some "secret123") "/"
        (some "Basic c2VjŁcmV0MTIz"))).completion
      = (authHandling (exampleContext (some "secret123") "/" none)).completion ∧
    (authHandling (exampleContext (some "secret123") "/"
        (some "Basic c2VjŁcmV0MTIz"))).nextCalls = 0) :=
  ⟨authHandling_rejects_other_credential
      (exampleContext (some "secret123") "/" (some "Basic d3Jvbmc="))
      "secret123" "Basic d3Jvbmc=" "d3Jvbmc=" [] rfl (by decide) (by decide) rfl
      (by decide) (by decide) (by decide),
    authHandling_rejects_other_credential
      (exampleContext (some "secret123") "/" (some "Basic c2VjŁcmV0MTIz"))
      "secret123" "Basic c2VjŁcmV0MTIz" "c2VjŁcmV0MTIz" [] rfl (by decide) (by decide) rfl
      (by decide) (by decide) (by decide)⟩

/-- C4: on the path `/logout`, with the secret set (a non-empty `PASSWORD`, which is what
the guard of `authHandling` lets through) and whatever the `Authorization` header
(absent, malformed, or carrying the right credential), `authHandling` returns status 401
with body `Logged out.` and no header, so no `WWW-Authenticate`, and the continuation is
not called. -/
theorem authHandling_logout_plain_denial {R : Type} (context : Context R) (password : String)
    (hp : context.env.PASSWORD = some password) (hne : password ≠ "")
    (hpath : context.request.pathname = "/logout") :
    (authHandling context).completion = .normal (.response ⟨"Logged out.", 401, []⟩) ∧
    (∀ r, (authHandling context).completion = .normal (.response r) →
      r.status = 401 ∧ r.body = "Logged out." ∧ r.hasHeader "WWW-Authenticate" = false) ∧
    (authHandling context).nextCalls = 0 := by
  rw [authHandling_logout context password hp hne hpath]
  refine ⟨rfl, ?_, by simp [Run.nextCalls]⟩
  intro r hr
  simp only [Completion.normal.injEq, Returned.response.injEq] at hr
  subst hr
  exact ⟨rfl, rfl, rfl⟩

/-- Witness of C4 on `/logout` with the right credential supplied. -/
theorem authHandling_logout_plain_denial_witness :
    (authHandling (exampleContext (some "secret123") "/logout"
        (some "Basic c2VjcmV0MTIz"))).completion
      = .normal (.response ⟨"Logged out.", 401, []⟩) ∧
    (∀ r, (authHandling (exampleContext (some "secret123") "/logout"
        (some "Basic c2VjcmV0MTIz"))).completion = .normal (.response r) →
      r.status = 401 ∧ r.body = "Logged out." ∧ r.hasHeader "WWW-Authenticate" = false) ∧
    (authHandling (exampleContext (some "secret123") "/logout"
        (some "Basic c2VjcmV0MTIz"))).nextCalls = 0 :=
  authHandling_logout_plain_denial
    (exampleContext (some "secret123") "/logout" (some "Basic c2VjcmV0MTIz"))
    "secret123" rfl (by decide) rfl

/-- C5: a request without `Authorization` header on a path other than `/logout`, with the
secret set (a non-empty `PASSWORD`), gets status 401, body `You need to login.` and the
header `WWW-Authenticate` of value `Basic realm="myrealm", charset="UTF-8"`; the
continuation is not called. -/
theorem authHandling_challenges_without_header {R : Type} (context : Context R)
    (password : String)
    (hp : context.env.PASSWORD = some password) (hne : password ≠ "")
    (hpath : context.request.pathname ≠ "/logout")
    (ha : context.request.authorization = none) :
    (authHandling context).completion
      = .normal (.response ⟨"You need to login.", 401,
          [("WWW-Authenticate", "Basic realm=\"myrealm\", charset=\"UTF-8\"")]⟩) ∧
    (authHandling context).nextCalls = 0 := by
  rw [authHandling_no_header context password hp hne hpath (Or.inl ha)]
  exact ⟨rfl, by simp [Run.nextCalls]⟩

/-- Witness of C5 on the request for `/` without header. -/
theorem authHandling_challenges_without_header_witness :
    (authHandling (exampleContext (some "secret123") "/" none)).completion
      = .normal (.response ⟨"You need to login.", 401,
          [("WWW-Authenticate", "Basic realm=\"myrealm\", charset=\"UTF-8\"")]⟩) ∧
    (authHandling (exampleContext (some "secret123") "/" none)).nextCalls = 0 :=
  authHandling_challenges_without_header (exampleContext (some "secret123") "/" none)
    "secret123" rfl (by decide) (by decide) rfl

/-- C6, as stated, fails on the empty header value: its scheme is not `Basic` and it has
no token, yet the answer is the 401 challenge and not the 400 response. -/
theorem authHandling_empty_header_not_malformed :
    schemeOf "" ≠ "Basic" ∧ tokenOf "" = none ∧
    (authHandling (exampleContext (some "secret123") "/" (some ""))).completion
      = .normal (.response ⟨"You need to login.", 401,
          [("WWW-Authenticate", "Basic realm=\"myrealm\", charset=\"UTF-8\"")]⟩) ∧
    (authHandling (exampleContext (some "secret123") "/" (some ""))).completion
      ≠ .normal (.response ⟨"Malformed authorization header.", 400, []⟩) := by
  decide

/-- C6, amended: with the secret set (a non-empty `PASSWORD`) and a path other than
`/logout`, a non-empty
`Authorization` header whose scheme (the text before the first space) is not exactly
`Basic`, or whose token (the text after the first space) is absent or empty, gets status
400 with body `Malformed authorization header.` and the continuation is not called; an
empty header value gets the 401 challenge of a request without header. -/
theorem authHandling_malformed_header {R : Type} (context : Context R)
    (password authorization : String)
    (hp : context.env.PASSWORD = some password) (hne : password ≠ "")
    (hpath : context.request.pathname ≠ "/logout")
    (ha : context.request.authorization = some authorization)
    (hm : schemeOf authorization ≠ "Basic" ∨ tokenOf authorization = none
      ∨ tokenOf authorization = some "") :
    (authorization ≠ "" →
      (authHandling context).completion
        = .normal (.response ⟨"Malformed authorization header.", 400, []⟩) ∧
      (authHandling context).nextCalls = 0) ∧
    (authorization = "" →
      (authHandling context).completion
        = .normal (.response ⟨"You need to login.", 401,
            [("WWW-Authenticate", "Basic realm=\"myrealm\", charset=\"UTF-8\"")]⟩) ∧
      (authHandling context).nextCalls = 0) := by
  constructor
  · intro hh
    have key : authHandling context
        = ⟨.normal (.response malformedResponse), [.newResponse malformedResponse]⟩ := by
      cases ht : tokenOf authorization with
      | none =>
        exact authHandling_one_field context password authorization _ hp hne hpath ha hh
          (split_of_tokenOf_none authorization ht)
      | some token =>
        have hs := split_of_tokenOf_some authorization token ht
        rcases hsplit : split token ' ' with _ | ⟨encoded, rest⟩
        · exact absurd hsplit (split_ne_nil _ _)
        rw [hsplit] at hs
        refine authHandling_malformed context password authorization _ encoded rest
          hp hne hpath ha hh hs ?_
        rcases hm with hm | hm | hm
        · exact Or.inr hm
        · rw [ht] at hm
          simp at hm
        · rw [ht] at hm
          simp only [Option.some.injEq] at hm
          subst hm
          rw [split_empty] at hsplit
          simp only [List.cons.injEq] at hsplit
          exact Or.inl hsplit.1.symm
    rw [key]
    exact ⟨rfl, by simp [Run.nextCalls]⟩
  · intro hh
    subst hh
    rw [authHandling_no_header context password hp hne hpath (Or.inr ha)]
    exact ⟨rfl, by simp [Run.nextCalls]⟩

/-- Witness of amended C6 on the header values `Bearer abc`, `Basic` and
`basic c2VjcmV0MTIz`. -/
theorem authHandling_malformed_header_witness :
    ((authHandling (exampleContext (some "secret123") "/" (some "Bearer abc"))).completion
        = .normal (.response ⟨"Malformed authorization header.", 400, []⟩) ∧
      (authHandling (exampleContext (some "secret123") "/" (some "Bearer abc"))).nextCalls
        = 0) ∧
    ((authHandling (exampleContext (some "secret123") "/" (some "Basic"))).completion
        = .normal (.response ⟨"Malformed authorization header.", 400, []⟩) ∧
      (authHandling (exampleContext (some "secret123") "/" (some "Basic"))).nextCalls
        = 0) ∧
    ((authHandling (exampleContext (some "secret123") "/"
          (some "basic c2VjcmV0MTIz"))).completion
        = .normal (.response ⟨"Malformed authorization header.", 400, []⟩) ∧
      (authHandling (exampleContext (some "secret123") "/"
          (some "basic c2VjcmV0MTIz"))).nextCalls = 0) :=
  ⟨(authHandling_malformed_header (exampleContext (some "secret123") "/" (some "Bearer abc"))
      "secret123" "Bearer abc" rfl (by decide) (by decide) rfl (Or.inl (by decide))).1
      (by decide),
    (authHandling_malformed_header (exampleContext (some "secret123") "/" (some "Basic"))
      "secret123" "Basic" rfl (by decide) (by decide) rfl (Or.inr (Or.inl (by decide)))).1
      (by decide),
    (authHandling_malformed_header
      (exampleContext (some "secret123") "/" (some "basic c2VjcmV0MTIz"))
      "secret123" "basic c2VjcmV0MTIz" rfl (by decide) (by decide) rfl
      (Or.inl (by decide))).1 (by decide)⟩

/-- C7: when the `PASSWORD` binding is missing, `authHandling` throws the error
`PASSWORD secret is not set` for every request, whatever its path and header, without
any external call: no `Response` is built and the continuation is not called. -/
theorem authHandling_throws_without_secret {R : Type} (context : Context R)
    (h : context.env.PASSWORD = none) :
    (authHandling context).completion = .throw "PASSWORD secret is not set" ∧
    (authHandling context).calls = [] ∧
    (authHandling context).builtResponse = false ∧
    (authHandling context).nextCalls = 0 := by
  rw [authHandling_unset context (Or.inl h)]
  exact ⟨rfl, rfl, rfl, rfl⟩

/-- Witness of C7 on `/logout` and on a request that carries the credential
`secret123`. -/
theorem authHandling_throws_without_secret_witness :
    ((authHandling (exampleContext none "/logout" none)).completion
        = .throw "PASSWORD secret is not set" ∧
      (authHandling (exampleContext none "/logout" none)).calls = [] ∧
      (authHandling (exampleContext none "/logout" none)).builtResponse = false ∧
      (authHandling (exampleContext none "/logout" none)).nextCalls = 0) ∧
    ((authHandling (exampleContext none "/" (some "Basic c2VjcmV0MTIz"))).completion
        = .throw "PASSWORD secret is not set" ∧
      (authHandling (exampleContext none "/" (some "Basic c2VjcmV0MTIz"))).calls = [] ∧
      (authHandling (exampleContext none "/" (some "Basic c2VjcmV0MTIz"))).builtResponse
        = false ∧
      (authHandling (exampleContext none "/" (some "Basic c2VjcmV0MTIz"))).nextCalls = 0) :=
  ⟨authHandling_throws_without_secret (exampleContext none "/logout" none) rfl,
    authHandling_throws_without_secret
      (exampleContext none "/" (some "Basic c2VjcmV0MTIz")) rfl⟩

/-- C8: with the secret set (a non-empty `PASSWORD`, which is what the guard of
`authHandling` lets through), `authHandling` completes without throwing, for every
request, and its outcome is exactly one of four: pass-through (the value of
`context.next()`), the 401 challenge (with `WWW-Authenticate`), the 401 plain denial
(without `WWW-Authenticate`, and only on the path `/logout`), or the 400 response.  Every
`Response` the gate builds is one of these three, and the continuation is called, once,
exactly in the pass-through case. -/
theorem authHandling_four_outcomes {R : Type} (context : Context R) (password : String)
    (hp : context.env.PASSWORD = some password) (hne : password ≠ "") :
    (∀ message, (authHandling context).completion ≠ .throw message) ∧
    (((authHandling context).completion = .normal (.downstream (context.next ())) ∧
        (authHandling context).nextCalls = 1 ∧
        (authHandling context).builtResponse = false)
      ∨ ((authHandling context).completion = .normal (.response challengeResponse) ∧
        (authHandling context).nextCalls = 0)
      ∨ ((authHandling context).completion = .normal (.response loggedOutResponse) ∧
        (authHandling context).nextCalls = 0 ∧ context.request.pathname = "/logout")
      ∨ ((authHandling context).completion = .normal (.response malformedResponse) ∧
        (authHandling context).nextCalls = 0)) ∧
    (∀ r, (authHandling context).completion ≠ .normal (.response r)
      ∨ (authHandling context).completion ≠ .normal (.downstream (context.next ()))) ∧
    (∀ r, Call.newResponse r ∈ (authHandling context).calls →
      r = challengeResponse ∨ r = loggedOutResponse ∨ r = malformedResponse) ∧
    (challengeResponse ≠ loggedOutResponse ∧ challengeResponse ≠ malformedResponse ∧
      loggedOutResponse ≠ malformedResponse) ∧
    (challengeResponse.status = 401 ∧ challengeResponse.hasHeader "WWW-Authenticate" = true ∧
      loggedOutResponse.status = 401 ∧ loggedOutResponse.hasHeader "WWW-Authenticate" = false ∧
      malformedResponse.status = 400) := by
  refine ⟨?_, ?_, ?_, ?_, by decide, by decide⟩
  · rcases authHandling_cases context with ⟨hu, _⟩ | ⟨pw, hpw, _, hrest⟩
    · rw [hp] at hu
      rcases hu with hu | hu
      · simp at hu
      · simp only [Option.some.injEq] at hu
        exact absurd hu hne
    rcases hrest with ⟨_, hrun⟩ | ⟨_, _, hrun⟩ | ⟨a, _, _, _, hrest⟩
    · rw [hrun]; simp
    · rw [hrun]; simp
    rcases hrest with ⟨_, hrun⟩ | ⟨e, rest, _, _, hrest⟩
    · rw [hrun]; simp
    rcases hrest with ⟨_, hrun⟩ | ⟨_, hrun⟩
    · rw [hrun]; simp
    · rw [hrun]; simp
  · rcases authHandling_cases context with ⟨hu, _⟩ | ⟨pw, hpw, _, hrest⟩
    · rw [hp] at hu
      rcases hu with hu | hu
      · simp at hu
      · simp only [Option.some.injEq] at hu
        exact absurd hu hne
    rcases hrest with ⟨hpath, hrun⟩ | ⟨_, _, hrun⟩ | ⟨a, _, _, _, hrest⟩
    · rw [hrun]
      exact Or.inr (Or.inr (Or.inl ⟨rfl, by simp [Run.nextCalls], hpath⟩))
    · rw [hrun]
      exact Or.inr (Or.inl ⟨rfl, by simp [Run.nextCalls]⟩)
    rcases hrest with ⟨_, hrun⟩ | ⟨e, rest, _, _, hrest⟩
    · rw [hrun]
      exact Or.inr (Or.inr (Or.inr ⟨rfl, by simp [Run.nextCalls]⟩))
    rcases hrest with ⟨_, hrun⟩ | ⟨_, hrun⟩
    · rw [hrun]
      exact Or.inr (Or.inl ⟨rfl, by simp [Run.nextCalls, count_next_timingSafeEqual_calls]⟩)
    · rw [hrun]
      exact Or.inl ⟨rfl, by simp [Run.nextCalls], by simp [Run.builtResponse]⟩
  · intro r
    by_cases h : (authHandling context).completion = .normal (.response r)
    · right
      rw [h]
      simp
    · exact Or.inl h
  · intro r hr
    rcases authHandling_cases context with ⟨_, hrun⟩ | ⟨pw, hpw, _, hrest⟩
    · rw [hrun] at hr
      simp at hr
    rcases hrest with ⟨hpath, hrun⟩ | ⟨_, _, hrun⟩ | ⟨a, _, _, _, hrest⟩
    · rw [hrun] at hr
      simp only [List.mem_singleton, Call.newResponse.injEq] at hr
      exact Or.inr (Or.inl hr)
    · rw [hrun] at hr
      simp only [List.mem_singleton, Call.newResponse.injEq] at hr
      exact Or.inl hr
    rcases hrest with ⟨_, hrun⟩ | ⟨e, rest, _, _, hrest⟩
    · rw [hrun] at hr
      simp only [List.mem_singleton, Call.newResponse.injEq] at hr
      exact Or.inr (Or.inr hr)
    rcases hrest with ⟨_, hrun⟩ | ⟨_, hrun⟩
    · rw [hrun, timingSafeEqual_eq] at hr
      left
      split_ifs at hr <;> simpa using hr
    · rw [hrun] at hr
      simp at hr

/-- Witness of C8 on the five example requests of the specification. -/
theorem authHandling_four_outcomes_witness :
    (authHandling (exampleContext (some "secret123") "/"
        (some "Basic c2VjcmV0MTIz"))).completion = .normal (.downstream "page") ∧
    (authHandling (exampleContext (some "secret123") "/"
        (some "Basic d3Jvbmc="))).completion = .normal (.response challengeResponse) ∧
    (authHandling (exampleContext (some "secret123") "/" none)).completion
      = .normal (.response challengeResponse) ∧
    (authHandling (exampleContext (some "secret123") "/logout" none)).completion
      = .normal (.response loggedOutResponse) ∧
    (authHandling (exampleContext (some "secret123") "/" (some "Bearer abc"))).completion
      = .normal (.response malformedResponse) ∧
    ∀ message, (authHandling (exampleContext (some "secret123") "/"
        (some "Basic c2VjcmV0MTIz"))).completion ≠ .throw message :=
  ⟨by decide, by decide, by decide, by decide, by decide,
    (authHandling_four_outcomes
      (exampleContext (some "secret123") "/" (some "Basic c2VjcmV0MTIz"))
      "secret123" rfl (by decide)).1⟩

/-- C9: `timingSafeEqual(a, b)` never throws and returns true exactly when the UTF-8
encodings of `a` and `b` are the same bytes.  When the encodings differ in length it
returns false without calling `crypto.subtle.timingSafeEqual`; otherwise it calls the
primitive once, on the two encodings, so the primitive only ever receives inputs of equal
length. -/
theorem timingSafeEqual_iff_same_bytes (a b : String) :
    (timingSafeEqual a b).completion
      = .normal (decide (encoder.encode a = encoder.encode b)) ∧
    ((timingSafeEqual a b).completion = .normal true
      ↔ encoder.encode a = encoder.encode b) ∧
    ((encoder.encode a).length ≠ (encoder.encode b).length →
      timingSafeEqual a b = ⟨.normal false, []⟩) ∧
    ((encoder.encode a).length = (encoder.encode b).length →
      (timingSafeEqual a b).calls
        = [.subtleTimingSafeEqual (encoder.encode a) (encoder.encode b)]) ∧
    (∀ x y, Call.subtleTimingSafeEqual x y ∈ (timingSafeEqual a b).calls →
      x.length = y.length ∧
      ∀ message, (crypto.subtle.timingSafeEqual x y).completion ≠ .throw message) := by
  rw [timingSafeEqual_eq]
  by_cases hl : (encoder.encode a).length ≠ (encoder.encode b).length
  · have hne : encoder.encode a ≠ encoder.encode b := fun e => hl (by rw [e])
    rw [if_pos hl]
    refine ⟨by simp [hne], by simp [hne], fun _ => rfl, fun h => absurd h hl, ?_⟩
    intro x y hxy
    simp at hxy
  · rw [if_neg hl]
    have hl2 : (encoder.encode a).length = (encoder.encode b).length := by
      by_contra e
      exact hl e
    refine ⟨rfl, by simp, fun h => absurd h hl, fun _ => rfl, ?_⟩
    intro x y hxy
    simp only [List.mem_singleton, Call.subtleTimingSafeEqual.injEq] at hxy
    obtain ⟨rfl, rfl⟩ := hxy
    refine ⟨hl2, ?_⟩
    intro message
    simp [crypto.subtle.timingSafeEqual, hl2]

/-- Witness of C9: equal strings, strings of equal length, and strings whose encodings
differ in length although the strings have the same number of characters. -/
theorem timingSafeEqual_iff_same_bytes_witness :
    timingSafeEqual "secret123" "secret123"
      = ⟨.normal true, [.subtleTimingSafeEqual (encoder.encode "secret123")
          (encoder.encode "secret123")]⟩ ∧
    timingSafeEqual "secret123" "secret124"
      = ⟨.normal false, [.subtleTimingSafeEqual (encoder.encode "secret123")
          (encoder.encode "secret124")]⟩ ∧
    timingSafeEqual "é" "e" = ⟨.normal false, []⟩ :=
  ⟨by decide, by decide, (timingSafeEqual_iff_same_bytes "é" "e").2.2.1 (by decide)⟩

/-- C10: for every non-empty secret and every path other than `/logout`, the request whose
header is `Basic` followed by a space and the base64 text of the secret is passed to the
continuation: the header splits into exactly the scheme and the whole token, and decoding
the token gives the secret back.  With the secret `secret123`, the header
`Basic c2VjcmV0MTIz` passes, `Basic d3Jvbmc=` gets the 401 challenge and `Bearer abc`
gets 400. -/
theorem authHandling_accepts_encoded_secret :
    (∀ (R : Type) (next : Unit → R) (secret pathname method search : String)
        (otherHeaders : List (String × String)),
      secret ≠ "" → pathname ≠ "/logout" →
      split ("Basic " ++ base64Encode (encoder.encode secret)) ' '
        = ["Basic", base64Encode (encoder.encode secret)] ∧
      Buffer.toString (Buffer.fromBase64 (base64Encode (encoder.encode secret))) = secret ∧
      (authHandling ⟨⟨some secret⟩,
          ⟨pathname, some ("Basic " ++ base64Encode (encoder.encode secret)), method, search,
            otherHeaders⟩, next⟩).completion = .normal (.downstream (next ())) ∧
      (authHandling ⟨⟨some secret⟩,
          ⟨pathname, some ("Basic " ++ base64Encode (encoder.encode secret)), method, search,
            otherHeaders⟩, next⟩).nextCalls = 1) ∧
    base64Encode (encoder.encode "secret123") = "c2VjcmV0MTIz" ∧
    (authHandling (exampleContext (some "secret123") "/"
        (some "Basic c2VjcmV0MTIz"))).completion = .normal (.downstream "page") ∧
    (authHandling (exampleContext (some "secret123") "/"
        (some "Basic d3Jvbmc="))).completion
      = .normal (.response ⟨"You need to login.", 401,
          [("WWW-Authenticate", "Basic realm=\"myrealm\", charset=\"UTF-8\"")]⟩) ∧
    (authHandling (exampleContext (some "secret123") "/"
        (some "Bearer abc"))).completion
      = .normal (.response ⟨"Malformed authorization header.", 400, []⟩) := by
  refine ⟨?_, by decide, by decide, by decide, by decide⟩
  intro R next secret pathname method search otherHeaders hs hpath
  have hsplit := split_basic (base64Encode (encoder.encode secret))
    (base64Encode_encode_no_space secret)
  have hdec := toString_fromBase64_base64Encode secret
  have hh : "Basic " ++ base64Encode (encoder.encode secret) ≠ "" := by
    intro e
    rw [e, split_empty] at hsplit
    simp at hsplit
  have hrun := authHandling_passed
    (⟨⟨some secret⟩,
      ⟨pathname, some ("Basic " ++ base64Encode (encoder.encode secret)), method, search,
        otherHeaders⟩, next⟩ : Context R)
    secret _ (base64Encode (encoder.encode secret)) [] rfl hs hpath rfl hh hsplit
    (base64Encode_encode_ne_empty secret hs) (by rw [hdec])
  rw [hrun]
  exact ⟨hsplit, hdec, rfl, by simp [Run.nextCalls]⟩

/-- Witness of C10 on a secret with characters of one to four UTF-8 bytes. -/
theorem authHandling_accepts_encoded_secret_witness :
    "Basic " ++ base64Encode (encoder.encode "pä€😀") = "Basic cMOk4oKs8J+YgA==" ∧
    (authHandling (exampleContext (some "pä€😀") "/"
        (some ("Basic " ++ base64Encode (encoder.encode "pä€😀"))))).completion
      = .normal (.downstream "page") :=
  ⟨by decide,
    (authHandling_accepts_encoded_secret.1 String (fun _ => "page") "pä€😀" "/" "GET" "" []
      (by decide) (by decide)).2.2.1⟩

/-! ## The claims, continued -/

theorem split_basic_ne_empty {authorization encoded : String} {rest : List String}
    (hs : split authorization ' ' = "Basic" :: encoded :: rest) : authorization ≠ "" := by
  rintro rfl
  rw [split_empty] at hs
  simp at hs

/-- C12: the run of `authHandling` is the same for two contexts with the same bindings, the
same continuation and the same `Authorization` value whose paths are both `/logout` or
both different from it, whatever the rest of the two requests.  So two paths other than
`/logout` are not told apart, and nothing of the request but the path and the
`Authorization` value is read. -/
theorem authHandling_reads_path_and_header_only {R : Type} (context other : Context R)
    (henv : context.env = other.env) (hnext : context.next = other.next)
    (hauth : context.request.authorization = other.request.authorization)
    (hpath : context.request.pathname = "/logout" ↔ other.request.pathname = "/logout") :
    authHandling context = authHandling other := by
  obtain ⟨env, ⟨pathname, auth, method, search, headers⟩, next⟩ := context
  obtain ⟨env2, ⟨pathname2, auth2, method2, search2, headers2⟩, next2⟩ := other
  simp only at henv hnext hauth hpath
  subst henv hnext hauth
  unfold authHandling callNext
  by_cases h1 : pathname = "/logout"
  · have h2 := hpath.mp h1
    simp only [h1, h2]
  · have h2 : ¬ pathname2 = "/logout" := fun e => h1 (hpath.mpr e)
    simp only [h1, h2]

/-- Witness of C12 on the paths `/`, `/logout/`, `/Logout` and `/logout2`, and on two
requests that differ in method, query and other headers. -/
theorem authHandling_reads_path_and_header_only_witness :
    authHandling (exampleContext (some "secret123") "/" (some "Basic c2VjcmV0MTIz"))
      = authHandling (exampleContext (some "secret123") "/logout/"
          (some "Basic c2VjcmV0MTIz")) ∧
    authHandling (exampleContext (some "secret123") "/Logout" none)
      = authHandling (exampleContext (some "secret123") "/logout2" none) ∧
    authHandling (⟨⟨some "secret123"⟩, ⟨"/a", some "Bearer abc", "GET", "", []⟩,
        fun _ => "page"⟩ : Context String)
      = authHandling (⟨⟨some "secret123"⟩,
          ⟨"/b", some "Bearer abc", "POST", "?x=1", [("Cookie", "k=v")]⟩,
          fun _ => "page"⟩ : Context String) :=
  ⟨authHandling_reads_path_and_header_only _ _ rfl rfl rfl (by decide),
    authHandling_reads_path_and_header_only _ _ rfl rfl rfl (by decide),
    authHandling_reads_path_and_header_only _ _ rfl rfl rfl (by decide)⟩

theorem prefixed_ne_self (u s : String) : u ++ ":" ++ s ≠ s := by
  intro e
  have h := congrArg (fun x : String => x.data.length) e
  simp only [String.data_append, List.length_append, List.length_cons, List.length_nil] at h
  omega

/-- The run of `authHandling` on a header depends on the header through its first two
fields alone. -/
theorem authHandling_congr_fields {R : Type} (context other : Context R)
    (a1 a2 scheme encoded : String) (rest1 rest2 : List String)
    (henv : context.env = other.env) (hnext : context.next = other.next)
    (hpath : context.request.pathname = other.request.pathname)
    (h1 : context.request.authorization = some a1)
    (h2 : other.request.authorization = some a2)
    (hs1 : split a1 ' ' = scheme :: encoded :: rest1)
    (hs2 : split a2 ' ' = scheme :: encoded :: rest2) :
    authHandling context = authHandling other := by
  have hne1 : a1 ≠ "" := by
    rintro rfl
    rw [split_empty] at hs1
    simp at hs1
  have hne2 : a2 ≠ "" := by
    rintro rfl
    rw [split_empty] at hs2
    simp at hs2
  obtain ⟨env, ⟨pathname, auth, method, search, headers⟩, next⟩ := context
  obtain ⟨env2, ⟨pathname2, auth2, method2, search2, headers2⟩, next2⟩ := other
  simp only at henv hnext hpath h1 h2
  subst henv hnext hpath h1 h2
  unfold authHandling callNext
  simp only [hs1, hs2, hne1, hne2]

theorem split_basic_two (t r : String) (ht : ' ' ∉ t.data) :
    split ("Basic " ++ t ++ " " ++ r) ' ' = "Basic" :: t :: split r ' ' := by
  have hdata : ("Basic " ++ t ++ " " ++ r).data
      = "Basic".data ++ ' ' :: (t.data ++ ' ' :: r.data) := by
    simp only [String.data_append]
    simp
  simp only [split, hdata]
  rw [splitChars_append_sep ' ' "Basic".data _ (by decide),
    splitChars_append_sep ' ' t.data r.data ht]
  rfl

theorem split_basic_double_space (x : String) :
    ∃ rest, split ("Basic  " ++ x) ' ' = "Basic" :: "" :: rest := by
  have hdata : ("Basic  " ++ x).data = "Basic".data ++ ' ' :: ([] ++ ' ' :: x.data) := by
    rw [String.data_append]
    rfl
  refine ⟨split x ' ', ?_⟩
  simp only [split, hdata]
  rw [splitChars_append_sep ' ' "Basic".data _ (by decide),
    splitChars_append_sep ' ' [] x.data (by simp)]
  rfl

/-- C13: the whole decoded string is compared with the secret and no user name is split
off.  With the secret set to a non-empty `secret` and a path other than `/logout`, a
request whose token decodes to `user`, a colon and `secret` gets the 401 challenge and
the continuation is not called, for every `user`: that string is never the secret.  This
holds in particular for the header a browser sends, `Basic` followed by the base64 text of
`user:secret`. -/
theorem authHandling_rejects_user_colon_secret {R : Type} (next : Unit → R)
    (secret user pathname method search : String) (otherHeaders : List (String × String))
    (hsecret : secret ≠ "") (hpath : pathname ≠ "/logout") :
    (∀ (authorization encoded : String) (rest : List String),
      split authorization ' ' = "Basic" :: encoded :: rest → encoded ≠ "" →
      Buffer.toString (Buffer.fromBase64 encoded) = user ++ ":" ++ secret →
      (authHandling ⟨⟨some secret⟩, ⟨pathname, some authorization, method, search,
          otherHeaders⟩, next⟩).completion
        = .normal (.response ⟨"You need to login.", 401,
            [("WWW-Authenticate", "Basic realm=\"myrealm\", charset=\"UTF-8\"")]⟩) ∧
      (authHandling ⟨⟨some secret⟩, ⟨pathname, some authorization, method, search,
          otherHeaders⟩, next⟩).nextCalls = 0) ∧
    Buffer.toString (Buffer.fromBase64
        (base64Encode (encoder.encode (user ++ ":" ++ secret)))) = user ++ ":" ++ secret ∧
    (authHandling ⟨⟨some secret⟩,
        ⟨pathname, some ("Basic " ++ base64Encode (encoder.encode (user ++ ":" ++ secret))),
          method, search, otherHeaders⟩, next⟩).completion
      = .normal (.response ⟨"You need to login.", 401,
          [("WWW-Authenticate", "Basic realm=\"myrealm\", charset=\"UTF-8\"")]⟩) := by
  have key : ∀ (authorization encoded : String) (rest : List String),
      split authorization ' ' = "Basic" :: encoded :: rest → encoded ≠ "" →
      Buffer.toString (Buffer.fromBase64 encoded) = user ++ ":" ++ secret →
      authHandling (⟨⟨some secret⟩, ⟨pathname, some authorization, method, search,
          otherHeaders⟩, next⟩ : Context R)
        = ⟨.normal (.response challengeResponse),
            (timingSafeEqual (Buffer.toString (Buffer.fromBase64 encoded)) secret).calls
              ++ [.newResponse challengeResponse]⟩ := by
    intro authorization encoded rest hs he hd
    refine authHandling_denied _ secret authorization encoded rest rfl hsecret hpath rfl
      (split_basic_ne_empty hs) hs he ?_
    intro e
    rw [hd] at e
    exact prefixed_ne_self user secret (encode_injective e)
  have hdec := toString_fromBase64_base64Encode (user ++ ":" ++ secret)
  refine ⟨?_, hdec, ?_⟩
  · intro authorization encoded rest hs he hd
    rw [key authorization encoded rest hs he hd]
    exact ⟨rfl, by simp [Run.nextCalls, count_next_timingSafeEqual_calls]⟩
  · have hne : user ++ ":" ++ secret ≠ "" := by
      intro e
      have h := congrArg (fun x : String => x.data.length) e
      simp only [String.data_append, List.length_append, List.length_cons,
        List.length_nil] at h
      omega
    rw [key _ (base64Encode (encoder.encode (user ++ ":" ++ secret))) []
      (split_basic _ (base64Encode_encode_no_space _))
      (base64Encode_encode_ne_empty _ hne) hdec]
    rfl

/-- Witness of C13: with secret `secret123`, the header of a browser that was given the
user name `anyuser` and the password `secret123`. -/
theorem authHandling_rejects_user_colon_secret_witness :
    "Basic " ++ base64Encode (encoder.encode ("anyuser" ++ ":" ++ "secret123"))
      = "Basic YW55dXNlcjpzZWNyZXQxMjM=" ∧
    (authHandling (⟨⟨some "secret123"⟩,
        ⟨"/", some ("Basic " ++ base64Encode
          (encoder.encode ("anyuser" ++ ":" ++ "secret123"))), "GET", "", []⟩,
        fun _ => "page"⟩ : Context String)).completion
      = .normal (.response ⟨"You need to login.", 401,
          [("WWW-Authenticate", "Basic realm=\"myrealm\", charset=\"UTF-8\"")]⟩) :=
  ⟨by decide,
    (authHandling_rejects_user_colon_secret (fun _ => "page") "secret123" "anyuser" "/"
      "GET" "" [] (by decide) (by decide)).2.2⟩

/-- C14: an empty `PASSWORD` is treated exactly like a missing one: the run is the throw of
`PASSWORD secret is not set` without any external call, the run of the same request with
the binding removed.  `authHandling` throws exactly when the binding is missing or empty,
and only that error.  No bindings make it accept an empty decoded credential: a request
whose token decodes to the empty string is never passed to the continuation. -/
theorem authHandling_empty_secret_is_unset {R : Type} (context : Context R) :
    (context.env.PASSWORD = some "" →
      authHandling context = ⟨.throw "PASSWORD secret is not set", []⟩ ∧
      authHandling context = authHandling { context with env := ⟨none⟩ }) ∧
    ((∃ message, (authHandling context).completion = .throw message)
      ↔ context.env.PASSWORD = none ∨ context.env.PASSWORD = some "") ∧
    (∀ message, (authHandling context).completion = .throw message →
      message = "PASSWORD secret is not set") ∧
    (∀ (authorization scheme encoded : String) (rest : List String),
      context.request.authorization = some authorization →
      split authorization ' ' = scheme :: encoded :: rest →
      Buffer.toString (Buffer.fromBase64 encoded) = "" →
      Call.next ∉ (authHandling context).calls ∧
      ∀ r, (authHandling context).completion ≠ .normal (.downstream r)) := by
  refine ⟨?_, ?_, ?_, ?_⟩
  · intro h
    rw [authHandling_unset context (Or.inr h),
      authHandling_unset { context with env := ⟨none⟩ } (Or.inl rfl)]
    exact ⟨rfl, rfl⟩
  · constructor
    · rintro ⟨message, hm⟩
      rcases authHandling_cases context with ⟨hu, _⟩ | ⟨pw, _, _, hrest⟩
      · exact hu
      rcases hrest with ⟨_, hrun⟩ | ⟨_, _, hrun⟩ | ⟨a, _, _, _, hrest⟩
      · rw [hrun] at hm; simp at hm
      · rw [hrun] at hm; simp at hm
      rcases hrest with ⟨_, hrun⟩ | ⟨e, rest, _, _, hrest⟩
      · rw [hrun] at hm; simp at hm
      rcases hrest with ⟨_, hrun⟩ | ⟨_, hrun⟩
      · rw [hrun] at hm; simp at hm
      · rw [hrun] at hm; simp at hm
    · intro h
      exact ⟨_, by rw [authHandling_unset context h]⟩
  · intro message hm
    rcases authHandling_cases context with ⟨_, hrun⟩ | ⟨pw, _, _, hrest⟩
    · rw [hrun] at hm
      simp only [Completion.throw.injEq] at hm
      exact hm.symm
    rcases hrest with ⟨_, hrun⟩ | ⟨_, _, hrun⟩ | ⟨a, _, _, _, hrest⟩
    · rw [hrun] at hm; simp at hm
    · rw [hrun] at hm; simp at hm
    rcases hrest with ⟨_, hrun⟩ | ⟨e, rest, _, _, hrest⟩
    · rw [hrun] at hm; simp at hm
    rcases hrest with ⟨_, hrun⟩ | ⟨_, hrun⟩
    · rw [hrun] at hm; simp at hm
    · rw [hrun] at hm; simp at hm
  · intro authorization scheme encoded rest ha hs hd
    rcases authHandling_cases context with ⟨_, hrun⟩ | ⟨pw, _, hne, hrest⟩
    · rw [hrun]; simp
    rcases hrest with ⟨_, hrun⟩ | ⟨_, _, hrun⟩ | ⟨a, _, ha2, _, hrest⟩
    · rw [hrun]; simp
    · rw [hrun]; simp
    rcases hrest with ⟨_, hrun⟩ | ⟨e, rest2, hs2, _, hrest⟩
    · rw [hrun]; simp
    rcases hrest with ⟨_, hrun⟩ | ⟨hc, _⟩
    · rw [hrun]
      simp [next_not_mem_timingSafeEqual_calls]
    · exfalso
      rw [ha] at ha2
      simp only [Option.some.injEq] at ha2
      subst ha2
      rw [hs] at hs2
      simp only [List.cons.injEq] at hs2
      obtain ⟨_, he, _⟩ := hs2
      subst he
      rw [hd] at hc
      exact hne (encode_injective hc).symm

/-- Witness of C14: with an empty `PASSWORD` the right path, the logout path and a token
that decodes to the empty string all end in the throw. -/
theorem authHandling_empty_secret_is_unset_witness :
    authHandling (exampleContext (some "") "/" (some "Basic c2VjcmV0MTIz"))
      = ⟨.throw "PASSWORD secret is not set", []⟩ ∧
    authHandling (exampleContext (some "") "/logout" none)
      = authHandling (exampleContext none "/logout" none) ∧
    Buffer.toString (Buffer.fromBase64 "====") = "" ∧
    authHandling (exampleContext (some "") "/" (some "Basic ===="))
      = ⟨.throw "PASSWORD secret is not set", []⟩ :=
  ⟨((authHandling_empty_secret_is_unset
      (exampleContext (some "") "/" (some "Basic c2VjcmV0MTIz"))).1 rfl).1,
    ((authHandling_empty_secret_is_unset (exampleContext (some "") "/logout" none)).1 rfl).2,
    by decide,
    ((authHandling_empty_secret_is_unset
      (exampleContext (some "") "/" (some "Basic ===="))).1 rfl).1⟩

/-- C15: only the first two space-separated fields of the header are read.  For a token
without space and any trailing text, the header `Basic`, space, token, space, trailing
text gets the run of the header `Basic`, space, token, in every context; so a right
credential followed by more text is passed through.  With the secret set and a path other
than `/logout`, a header with two spaces after `Basic` has an empty second field and gets
the 400 response. -/
theorem authHandling_reads_two_fields {R : Type} (context : Context R) (token trailing : String)
    (htoken : ' ' ∉ token.data) :
    authHandling { context with
        request := { context.request with
          authorization := some ("Basic " ++ token ++ " " ++ trailing) } }
      = authHandling { context with
          request := { context.request with authorization := some ("Basic " ++ token) } } ∧
    (∀ password, context.env.PASSWORD = some password → password ≠ "" →
      context.request.pathname ≠ "/logout" →
      ∀ text : String,
        (authHandling { context with
            request := { context.request with
              authorization := some ("Basic  " ++ text) } }).completion
          = .normal (.response ⟨"Malformed authorization header.", 400, []⟩)) := by
  constructor
  · exact authHandling_congr_fields _ _ ("Basic " ++ token ++ " " ++ trailing)
      ("Basic " ++ token) "Basic" token (split trailing ' ') [] rfl rfl rfl rfl rfl
      (split_basic_two token trailing htoken) (split_basic token htoken)
  · intro password hp hne hpath text
    obtain ⟨rest, hs⟩ := split_basic_double_space text
    have hh : "Basic  " ++ text ≠ "" := by
      intro e
      rw [e, split_empty] at hs
      simp at hs
    rw [authHandling_malformed { context with
        request := { context.request with authorization := some ("Basic  " ++ text) } }
      password ("Basic  " ++ text) "Basic" "" rest hp hne hpath rfl hh hs (Or.inl rfl)]
    rfl

/-- Witness of C15: with secret `secret123`, the right credential followed by more text is
passed through, and two spaces after `Basic` give 400. -/
theorem authHandling_reads_two_fields_witness :
    (authHandling (exampleContext (some "secret123") "/"
        (some "Basic c2VjcmV0MTIz and more text"))).completion
      = .normal (.downstream "page") ∧
    (authHandling (exampleContext (some "secret123") "/"
        (some "Basic  c2VjcmV0MTIz"))).completion
      = .normal (.response ⟨"Malformed authorization header.", 400, []⟩) :=
  have h := authHandling_reads_two_fields
    (exampleContext (some "secret123") "/" none) "c2VjcmV0MTIz" "and more text" (by decide)
  ⟨(congrArg Run.completion h.1).trans (by decide),
    h.2 "secret123" rfl (by decide) (by decide) "c2VjcmV0MTIz"⟩

/-- C16: the 400 response answers a defect of scheme or token, never the content of the
token.  With the secret set (a non-empty `PASSWORD`), a path other than `/logout` and a
header whose first field is exactly `Basic` and whose second field is not empty, the
outcome is pass-through or the 401 challenge: never the 400 response and never a throw,
whatever the token holds, be it no base64 at all or bytes that are no UTF-8. -/
theorem authHandling_token_content_never_malformed {R : Type} (context : Context R)
    (password authorization encoded : String) (rest : List String)
    (hp : context.env.PASSWORD = some password) (hne : password ≠ "")
    (hpath : context.request.pathname ≠ "/logout")
    (ha : context.request.authorization = some authorization)
    (hs : split authorization ' ' = "Basic" :: encoded :: rest) (he : encoded ≠ "") :
    ((authHandling context).completion = .normal (.downstream (context.next ()))
      ∨ (authHandling context).completion
        = .normal (.response ⟨"You need to login.", 401,
            [("WWW-Authenticate", "Basic realm=\"myrealm\", charset=\"UTF-8\"")]⟩)) ∧
    (authHandling context).completion
      ≠ .normal (.response ⟨"Malformed authorization header.", 400, []⟩) ∧
    (∀ r, (authHandling context).completion = .normal (.response r) → r.status ≠ 400) ∧
    (∀ message, (authHandling context).completion ≠ .throw message) := by
  have hh := split_basic_ne_empty hs
  by_cases hc : encoder.encode (Buffer.toString (Buffer.fromBase64 encoded))
      = encoder.encode password
  · rw [authHandling_passed context password authorization encoded rest hp hne hpath ha hh hs he
      hc]
    simp
  · rw [authHandling_denied context password authorization encoded rest hp hne hpath ha hh hs he
      hc]
    refine ⟨Or.inr rfl, by simp [challengeResponse], ?_, by simp⟩
    intro r hr
    simp only [Completion.normal.injEq, Returned.response.injEq] at hr
    subst hr
    decide

/-- Witness of C16: with secret `secret123`, a token without any base64 digit and a token
whose byte is no UTF-8 get the challenge, and a token with a character outside the
alphabet in the middle of the right credential is passed through. -/
theorem authHandling_token_content_never_malformed_witness :
    Buffer.fromBase64 "!!!!" = [] ∧ Buffer.fromBase64 "/w==" = [0xFF] ∧
    (authHandling (exampleContext (some "secret123") "/" (some "Basic !!!!"))).completion
      = .normal (.response challengeResponse) ∧
    (authHandling (exampleContext (some "secret123") "/" (some "Basic /w=="))).completion
      = .normal (.response challengeResponse) ∧
    (authHandling (exampleContext (some "secret123") "/"
        (some "Basic c2Vj!cmV0MTIz"))).completion = .normal (.downstream "page") ∧
    (authHandling (exampleContext (some "secret123") "/" (some "Basic !!!!"))).completion
      ≠ .normal (.response ⟨"Malformed authorization header.", 400, []⟩) ∧
    (authHandling (exampleContext (some "secret123") "/" (some "Basic /w=="))).completion
      ≠ .normal (.response ⟨"Malformed authorization header.", 400, []⟩) :=
  ⟨by decide, by decide, by decide, by decide, by decide,
    (authHandling_token_content_never_malformed
      (exampleContext (some "secret123") "/" (some "Basic !!!!"))
      "secret123" "Basic !!!!" "!!!!" [] rfl (by decide) (by decide) rfl (by decide)
      (by decide)).2.1,
    (authHandling_token_content_never_malformed
      (exampleContext (some "secret123") "/" (some "Basic /w=="))
      "secret123" "Basic /w==" "/w==" [] rfl (by decide) (by decide) rfl (by decide)
      (by decide)).2.1⟩

end Middleware
